import Mathlib

/-!
Verification development for the collectd statsd plugin (`src/statsd.c`).

The C code is shallowly embedded: IEEE doubles are modelled as exact
rationals extended with `nan` / `inf` / `-inf` (rounding is not modelled;
every numeric literal appearing in the checked claims is exactly
representable, and the corresponding IEEE computations are exact there),
heap allocation outcomes are made explicit through an `AllocPlan`
parameter, and the AVL-tree registry is modelled as an association list
kept in `strcmp` order (the iteration order of `c_avl_iterator_next`).
-/

namespace Statsd

/-- Model of a C `double` as an exact rational extended with the IEEE
special values produced by `strtod` ("nan", "inf", "-inf").  Signed zero
and rounding are not modelled. -/
inductive GVal where
  | fin (q : ℚ)
  | nan : GVal
  | inf : GVal
  | ninf : GVal
deriving DecidableEq, Repr

/-- IEEE addition on the model (used by `metric->value += delta`). -/
def GVal.add : GVal → GVal → GVal
  | .nan, _ => .nan
  | _, .nan => .nan
  | .inf, .ninf => .nan
  | .ninf, .inf => .nan
  | .inf, _ => .inf
  | _, .inf => .inf
  | .ninf, _ => .ninf
  | _, .ninf => .ninf
  | .fin a, .fin b => .fin (a + b)

/-- IEEE division on the model (used by `value.gauge / scale.gauge`).
Signed zero is not modelled: division of a finite value by zero uses the
sign of the numerator. -/
def GVal.div : GVal → GVal → GVal
  | .nan, _ => .nan
  | _, .nan => .nan
  | .inf, .inf => .nan
  | .inf, .ninf => .nan
  | .ninf, .inf => .nan
  | .ninf, .ninf => .nan
  | .inf, .fin b => if 0 ≤ b then .inf else .ninf
  | .ninf, .fin b => if 0 ≤ b then .ninf else .inf
  | .fin _, .inf => .fin 0
  | .fin _, .ninf => .fin 0
  | .fin a, .fin b =>
      if b = 0 then (if a = 0 then .nan else if 0 < a then .inf else .ninf)
      else .fin (a / b)

/-- `isfinite` of C99. -/
def GVal.isFinite : GVal → Bool
  | .fin _ => true
  | _ => false

/-- The C cast `(derive_t) d`: truncation toward zero.  Casting `nan` or
an infinity is undefined behaviour in C and is mapped to `0` here; no
checked claim exercises that case. -/
def GVal.toDerive : GVal → Int
  | .fin q => Int.tdiv q.num q.den
  | _ => 0

/-- Value of a digit string, most significant digit first. -/
def digitsVal (l : List Char) : Nat :=
  l.foldl (fun a c => 10 * a + (c.toNat - 48)) 0

/-- Exponent digits (after an optional sign) of a `strtod` input; `none`
when empty or containing a non-digit, in which case `strtod` would stop
before the `e` and the plugin's full-consumption check fails. -/
def expDigits (l : List Char) (neg : Bool) : Option Int :=
  if l = [] then none
  else if l.all (fun c => c.isDigit) then
    some (if neg then -(digitsVal l : Int) else (digitsVal l : Int))
  else none

/-- Optional sign of the exponent. -/
def expSigned : List Char → Option Int
  | '+' :: rest => expDigits rest false
  | '-' :: rest => expDigits rest true
  | rest => expDigits rest false

/-- Optional exponent part `( e | E ) [sign] digits` at the end of a
`strtod` input; `some 0` when absent. -/
def expPart : List Char → Option Int
  | [] => some 0
  | 'e' :: rest => expSigned rest
  | 'E' :: rest => expSigned rest
  | _ => none

/-- Magnitude of a decimal `strtod` token: `digits [. digits] [exp]`
where at least one digit is present before the exponent.  Returns `none`
unless the whole list is consumed. -/
def decimalMag (l : List Char) : Option ℚ :=
  let ip := l.takeWhile (fun c => c.isDigit)
  let r1 := l.dropWhile (fun c => c.isDigit)
  match r1 with
  | '.' :: r2 =>
    let fp := r2.takeWhile (fun c => c.isDigit)
    let r3 := r2.dropWhile (fun c => c.isDigit)
    if ip = [] ∧ fp = [] then none
    else
      match expPart r3 with
      | none => none
      | some e =>
          some (((digitsVal ip : ℚ) + (digitsVal fp : ℚ) / (10 : ℚ) ^ fp.length)
                * (10 : ℚ) ^ (e : ℤ))
  | _ =>
    if ip = [] then none
    else
      match expPart r1 with
      | none => none
      | some e => some ((digitsVal ip : ℚ) * (10 : ℚ) ^ (e : ℤ))

/-- Case-insensitive comparison of a char list against a keyword. -/
def lowerEq (l : List Char) (w : String) : Bool :=
  l.map Char.toLower == w.data

/-- Magnitude part of a `strtod` token after the optional sign:
decimal numbers, `inf`, `infinity` and `nan` (case-insensitive).
Hexadecimal floats, `nan(...)` payloads and overflow-to-infinity of
long decimal tokens are not modelled; no checked claim uses them. -/
def strtodMag (l : List Char) (neg : Bool) : Option GVal :=
  if lowerEq l "inf" || lowerEq l "infinity" then
    some (if neg then .ninf else .inf)
  else if lowerEq l "nan" then some .nan
  else (decimalMag l).map (fun m => GVal.fin (if neg then -m else m))

/-- Optional sign of a `strtod` token. -/
def strtodSigned : List Char → Option GVal
  | '+' :: rest => strtodMag rest false
  | '-' :: rest => strtodMag rest true
  | l => strtodMag l false

/-- C `strtod` restricted to inputs it consumes entirely (with at least
one character converted): leading whitespace, optional sign, then a
decimal number or `inf`/`infinity`/`nan`.  `none` models the cases where
`statsd_parse_value` rejects (`str == endptr` or `*endptr != 0`). -/
def strtodFull (s : String) : Option GVal :=
  strtodSigned (s.data.dropWhile (fun c => c.isWhitespace))

/-- `statsd_parse_value`: `strtod` the whole token, `none` (C: `-1`)
unless everything was consumed. -/
def statsd_parse_value (s : String) : Option GVal :=
  strtodFull s

/-- `metric_type_t`. -/
inductive MetricType where
  | counter
  | timer
  | gauge
  | set
deriving DecidableEq, Repr

/-- Modelled from the spec: the latency histogram of `utils_latency`
(§4.A), whose source is not part of this repository.  The accumulator is
modelled as the exact list of recorded samples (`cdtime_t` values);
`count`/`min`/`max`/`sum`/`average`/`percentile` are derived from it and
`reset` restores the empty state without deallocation.  The C version
stores bounded buckets and therefore *approximates* `percentile`; no
checked claim depends on a percentile's numeric value. -/
structure LatencyCounter where
  samples : List Nat
deriving DecidableEq, Repr

/-- Modelled from the spec: `latency_counter_create`. -/
def latency_counter_create : LatencyCounter := ⟨[]⟩

/-- Modelled from the spec: `latency_counter_add`. -/
def latency_counter_add (lc : LatencyCounter) (v : Nat) : LatencyCounter :=
  ⟨lc.samples ++ [v]⟩

/-- Modelled from the spec: `latency_counter_reset` (`NULL` is a no-op). -/
def latency_counter_reset : Option LatencyCounter → Option LatencyCounter
  | none => none
  | some _ => some ⟨[]⟩

/-- Modelled from the spec: `latency_counter_get_num` (`0` for `NULL`). -/
def latency_counter_get_num : Option LatencyCounter → Nat
  | none => 0
  | some lc => lc.samples.length

/-- Modelled from the spec: `latency_counter_get_sum`. -/
def latency_counter_get_sum : Option LatencyCounter → Nat
  | none => 0
  | some lc => lc.samples.foldl (· + ·) 0

/-- Modelled from the spec: `latency_counter_get_average` (integer
`cdtime_t` average; the flush engine only calls it when at least one
sample was recorded). -/
def latency_counter_get_average (l : Option LatencyCounter) : Nat :=
  match l with
  | none => 0
  | some lc =>
      if lc.samples.length = 0 then 0
      else (lc.samples.foldl (· + ·) 0) / lc.samples.length

/-- Modelled from the spec: `latency_counter_get_min`. -/
def latency_counter_get_min : Option LatencyCounter → Nat
  | none => 0
  | some lc =>
      match lc.samples with
      | [] => 0
      | x :: xs => xs.foldl Nat.min x

/-- Modelled from the spec: `latency_counter_get_max`. -/
def latency_counter_get_max : Option LatencyCounter → Nat
  | none => 0
  | some lc =>
      match lc.samples with
      | [] => 0
      | x :: xs => xs.foldl Nat.max x

/-- Insertion into a sorted list of samples. -/
def insertSorted (x : Nat) : List Nat → List Nat
  | [] => [x]
  | y :: ys => if x ≤ y then x :: y :: ys else y :: insertSorted x ys

/-- Sort a sample list ascending. -/
def sortNat (l : List Nat) : List Nat :=
  l.foldr insertSorted []

/-- Modelled from the spec: `latency_counter_get_percentile` — the
`⌈p/100·n⌉`-th smallest recorded sample (exact; the C version
approximates with bounded buckets). -/
def latency_counter_get_percentile (l : Option LatencyCounter) (p : ℚ) : Nat :=
  match l with
  | none => 0
  | some lc =>
      let sorted := sortNat lc.samples
      let n := sorted.length
      if n = 0 then 0
      else sorted.getD ((⌈p / 100 * (n : ℚ)⌉).toNat - 1) 0

/-- Modelled from the spec: the host's `DOUBLE_TO_CDTIME_T` conversion
(§6), `cdtime_t` being a fixed-point count of 2^-30 seconds.  Negative
and non-finite doubles are clamped to `0` (undefined behaviour in C; no
checked claim exercises them). -/
def DOUBLE_TO_CDTIME_T : GVal → Nat
  | .fin q => (⌊q * 1073741824⌋).toNat
  | _ => 0

/-- Modelled from the spec: the host's `CDTIME_T_TO_DOUBLE` conversion. -/
def CDTIME_T_TO_DOUBLE (c : Nat) : GVal :=
  .fin ((c : ℚ) / 1073741824)

/-- `struct statsd_metric_s`.  A fresh metric is `memset` to zero:
`value = 0.0`, `latency = NULL`, `set = NULL`, `updates_num = 0`. -/
structure StatsdMetric where
  mtype : MetricType
  value : GVal
  latency : Option LatencyCounter
  set : Option (List String)
  updates_num : Nat
deriving DecidableEq, Repr

/-- The registry `metrics_tree`: an association list in `strcmp` order,
the order in which `c_avl_iterator_next` enumerates the AVL tree. -/
abbrev Registry := List (String × StatsdMetric)

/-- The per-node options of `struct statsd_config_s` that the
aggregation engine reads (the prefix fields keep their meaning;
`globalPre`/`counterPre`/… stand for `global_prefix`/`counter_prefix`/…
and `globalPost` for `global_postfix`). -/
structure StatsdConfig where
  node_name : String
  delete_counters : Bool
  delete_timers : Bool
  delete_gauges : Bool
  delete_sets : Bool
  timer_percentile : List ℚ
  timer_lower : Bool
  timer_upper : Bool
  timer_sum : Bool
  timer_count : Bool
  leave_metrics_name_asis : Bool
  globalPre : String
  counterPre : String
  timerPre : String
  gaugePre : String
  setPre : String
  globalPost : String
deriving DecidableEq, Repr

/-- The defaults of `statsd_config_alloc` (all-zero config). -/
def defaultConf : StatsdConfig :=
  { node_name := "default"
    delete_counters := false
    delete_timers := false
    delete_gauges := false
    delete_sets := false
    timer_percentile := []
    timer_lower := false
    timer_upper := false
    timer_sum := false
    timer_count := false
    leave_metrics_name_asis := false
    globalPre := ""
    counterPre := ""
    timerPre := ""
    gaugePre := ""
    setPre := ""
    globalPost := "" }

/-- Outcome of each heap allocation an update can attempt (`true` =
allocation succeeds).  `dupKey`/`mallocMetric`/`insertKey` are the three
allocations of `statsd_metric_lookup_locked`; `allocLatency` is
`latency_counter_create`; `allocSet` is `c_avl_create` for a set;
`dupMember` is `strdup (set_key_orig)`; `insertMember` is the node
allocation inside `c_avl_insert` of a new set member. -/
structure AllocPlan where
  dupKey : Bool
  mallocMetric : Bool
  insertKey : Bool
  allocLatency : Bool
  allocSet : Bool
  dupMember : Bool
  insertMember : Bool
deriving DecidableEq, Repr

/-- The plan on which every allocation succeeds. -/
def allocOk : AllocPlan :=
  ⟨true, true, true, true, true, true, true⟩

/-- Modelled from the spec: the host daemon's name-length ceiling
`DATA_MAX_NAME_LEN` (defined in the daemon's `plugin.h`, value 64). -/
def DATA_MAX_NAME_LEN : Nat := 64

/-- `typeChar`: the key prefix byte chosen by
`statsd_metric_lookup_locked`'s `switch`. -/
def typeChar : MetricType → Char
  | .counter => 'c'
  | .timer => 't'
  | .gauge => 'g'
  | .set => 's'

/-- The composite registry key: prefix byte, `':'`, then at most
`DATA_MAX_NAME_LEN - 1` bytes of the name
(`sstrncpy (&key[2], name, sizeof (key) - 2)` into
`char key[DATA_MAX_NAME_LEN + 2]`). -/
def metricKey (t : MetricType) (name : String) : String :=
  ⟨typeChar t :: ':' :: name.data.take (DATA_MAX_NAME_LEN - 1)⟩

/-- `c_avl_get`. -/
def registryGet (s : Registry) (k : String) : Option StatsdMetric :=
  match s with
  | [] => none
  | (k0, m) :: rest => if k0 = k then some m else registryGet rest k

/-- `strcmp`-order comparison (byte order; names are ASCII-clean). -/
def charListLt : List Char → List Char → Bool
  | [], [] => false
  | [], _ :: _ => true
  | _ :: _, [] => false
  | a :: as, b :: bs =>
      if a.toNat < b.toNat then true
      else if b.toNat < a.toNat then false
      else charListLt as bs

/-- `strcmp`-order on keys. -/
def strLt (a b : String) : Bool :=
  charListLt a.data b.data

/-- `c_avl_insert` of a key known to be absent, placed at its
`strcmp`-order position. -/
def registryInsert : Registry → String → StatsdMetric → Registry
  | [], k, v => [(k, v)]
  | (k0, v0) :: rest, k, v =>
      if strLt k k0 then (k, v) :: (k0, v0) :: rest
      else (k0, v0) :: registryInsert rest k v

/-- In-place mutation of the metric stored under a key (writes through
the pointer returned by `c_avl_get`). -/
def registryApply : Registry → String → (StatsdMetric → StatsdMetric) → Registry
  | [], _, _ => []
  | (k0, m) :: rest, k, f =>
      if k0 = k then (k0, f m) :: registryApply rest k f
      else (k0, m) :: registryApply rest k f

/-- The `memset`-zeroed fresh metric built by
`statsd_metric_lookup_locked`. -/
def blankMetric (t : MetricType) : StatsdMetric :=
  ⟨t, .fin 0, none, none, 0⟩

/-- `statsd_metric_lookup_unsafe` (renamed `_locked`; it must run under `metrics_lock`): find the metric for `(type, name)` or
insert a fresh one.  `none` models the allocation-failure returns, on
which the function leaves the tree unchanged (it frees whatever it had
allocated). -/
def statsd_metric_lookup_locked (plan : AllocPlan) (s : Registry)
    (t : MetricType) (name : String) : Option Registry :=
  let k := metricKey t name
  match registryGet s k with
  | some _ => some s
  | none =>
      if plan.dupKey = false then none
      else if plan.mallocMetric = false then none
      else if plan.insertKey = false then none
      else some (registryInsert s k (blankMetric t))

/-- `statsd_metric_set`: lookup-or-insert, assign `value`, bump
`updates_num`.  The `Bool` is `status == 0`. -/
def statsd_metric_set (plan : AllocPlan) (s : Registry) (name : String)
    (value : GVal) (t : MetricType) : Bool × Registry :=
  match statsd_metric_lookup_locked plan s t name with
  | none => (false, s)
  | some s' =>
      (true, registryApply s' (metricKey t name)
        (fun m => { m with value := value, updates_num := m.updates_num + 1 }))

/-- `statsd_metric_add`: lookup-or-insert, `value += delta`, bump
`updates_num`. -/
def statsd_metric_add (plan : AllocPlan) (s : Registry) (name : String)
    (delta : GVal) (t : MetricType) : Bool × Registry :=
  match statsd_metric_lookup_locked plan s t name with
  | none => (false, s)
  | some s' =>
      (true, registryApply s' (metricKey t name)
        (fun m => { m with value := m.value.add delta, updates_num := m.updates_num + 1 }))

/-- The check `(extra != NULL) && (extra[0] != '@')` of the counter and
timer handlers (`true` = proceed). -/
def extraAtOk : Option String → Bool
  | none => true
  | some e =>
      match e.data with
      | '@' :: _ => true
      | _ => false

/-- Sample-rate extraction of the counter/timer handlers: default `1.0`,
else parse `extra + 1`, reject non-finite rates and rates outside
`(0, 1]`. -/
def scaleOf : Option String → Option ℚ
  | none => some 1
  | some e =>
      match statsd_parse_value ⟨e.data.tail⟩ with
      | some (GVal.fin q) => if 0 < q ∧ q ≤ 1 then some q else none
      | some _ => none
      | none => none

/-- `statsd_handle_counter`. -/
def statsd_handle_counter (plan : AllocPlan) (s : Registry) (name valueStr : String)
    (extra : Option String) : Bool × Registry :=
  if extraAtOk extra = false then (false, s)
  else
    match scaleOf extra with
    | none => (false, s)
    | some scale =>
        match statsd_parse_value valueStr with
        | none => (false, s)
        | some v => statsd_metric_add plan s name (v.div (.fin scale)) .counter

/-- `statsd_handle_gauge`: a leading `'+'` or `'-'` on the textual value
selects the additive update, otherwise the value is assigned. -/
def statsd_handle_gauge (plan : AllocPlan) (s : Registry)
    (name valueStr : String) : Bool × Registry :=
  match statsd_parse_value valueStr with
  | none => (false, s)
  | some v =>
      match valueStr.data with
      | '+' :: _ => statsd_metric_add plan s name v .gauge
      | '-' :: _ => statsd_metric_add plan s name v .gauge
      | _ => statsd_metric_set plan s name v .gauge

/-- `statsd_handle_timer`.  Note the failure returns after
`statsd_metric_lookup_locked` succeeded leave the freshly inserted
metric in the tree (with `latency == NULL`). -/
def statsd_handle_timer (plan : AllocPlan) (s : Registry) (name valueStr : String)
    (extra : Option String) : Bool × Registry :=
  if extraAtOk extra = false then (false, s)
  else
    match scaleOf extra with
    | none => (false, s)
    | some scale =>
        match statsd_parse_value valueStr with
        | none => (false, s)
        | some vms =>
            let value := DOUBLE_TO_CDTIME_T (vms.div (.fin scale))
            match statsd_metric_lookup_locked plan s .timer name with
            | none => (false, s)
            | some s' =>
                let k := metricKey .timer name
                match registryGet s' k with
                | none => (false, s')
                | some m =>
                    match m.latency with
                    | some lc =>
                        (true, registryApply s' k (fun m0 =>
                          { m0 with latency := some (latency_counter_add lc value),
                                    updates_num := m0.updates_num + 1 }))
                    | none =>
                        if plan.allocLatency = false then (false, s')
                        else
                          (true, registryApply s' k (fun m0 =>
                            { m0 with
                                latency := some (latency_counter_add latency_counter_create value),
                                updates_num := m0.updates_num + 1 }))

/-- `statsd_handle_set`.  Mirrors the C control flow: the member set is
created (and stored on the metric) before the member string is
duplicated, so failures of the later allocations leave the metric — and
a possibly freshly created empty set — in the tree. -/
def statsd_handle_set (plan : AllocPlan) (s : Registry)
    (name member : String) : Bool × Registry :=
  match statsd_metric_lookup_locked plan s .set name with
  | none => (false, s)
  | some s' =>
      let k := metricKey .set name
      match registryGet s' k with
      | none => (false, s')
      | some m =>
          match (match m.set with
                 | some xs => some xs
                 | none => if plan.allocSet then some [] else none) with
          | none => (false, s')
          | some xs =>
              let s'' := registryApply s' k (fun m0 => { m0 with set := some xs })
              if plan.dupMember = false then (false, s'')
              else if member ∈ xs then
                (true, registryApply s'' k (fun m0 =>
                  { m0 with updates_num := m0.updates_num + 1 }))
              else if plan.insertMember = false then (false, s'')
              else
                (true, registryApply s'' k (fun m0 =>
                  { m0 with set := some (xs ++ [member]),
                            updates_num := m0.updates_num + 1 }))

/-- Split a char list at the first occurrence of `c` (C `strchr`). -/
def splitFirst (l : List Char) (c : Char) : Option (List Char × List Char) :=
  match l with
  | [] => none
  | x :: xs =>
      if x = c then some ([], xs)
      else (splitFirst xs c).map (fun p => (x :: p.1, p.2))

/-- Split a char list at the last occurrence of `c` (C `strrchr`). -/
def splitLast (l : List Char) (c : Char) : Option (List Char × List Char) :=
  match splitFirst l.reverse c with
  | none => none
  | some (a, b) => some (b.reverse, a.reverse)

/-- `statsd_parse_line`: split off the type at the first `'|'`, the
value at the *last* `':'` before it, and the optional extra field at the
next `'|'`; dispatch on the type token.  The `Bool` is `status == 0`. -/
def statsd_parse_line (plan : AllocPlan) (s : Registry) (line : String) :
    Bool × Registry :=
  match splitFirst line.data '|' with
  | none => (false, s)
  | some (nv, rest) =>
      match splitLast nv ':' with
      | none => (false, s)
      | some (nameL, valueL) =>
          let te : List Char × Option String :=
            match splitFirst rest '|' with
            | none => (rest, none)
            | some (t, e) => (t, some ⟨e⟩)
          let name : String := ⟨nameL⟩
          let value : String := ⟨valueL⟩
          if te.1 = ['c'] then statsd_handle_counter plan s name value te.2
          else if te.1 = ['m', 's'] then statsd_handle_timer plan s name value te.2
          else if te.2.isSome then (false, s)
          else if te.1 = ['g'] then statsd_handle_gauge plan s name value
          else if te.1 = ['s'] then statsd_handle_set plan s name value
          else (false, s)

/-- The tagged `value_t` stored in a dispatched `value_list_t`: either a
`gauge` double or a `derive` integer accumulator. -/
inductive VListVal where
  | gauge (g : GVal)
  | derive (d : Int)
deriving DecidableEq, Repr

/-- One `plugin_dispatch_values` call, restricted to the fields the
plugin fills in and the claims inspect (`vtype` is `vl.type`). -/
structure DispatchRecord where
  plugin_instance : String
  vtype : String
  type_instance : String
  value : VListVal
deriving DecidableEq, Repr

/-- Truncation performed by `ssnprintf`/`sstrncpy` into the
`char[DATA_MAX_NAME_LEN]` name buffers. -/
def nameTrunc (s : String) : String :=
  ⟨s.data.take (DATA_MAX_NAME_LEN - 1)⟩

/-- `%.0f` of the C library: round half to even, then print. -/
def roundHalfEven (q : ℚ) : Int :=
  let f := ⌊q⌋
  let d := q - (f : ℚ)
  if d < 1 / 2 then f
  else if 1 / 2 < d then f + 1
  else if f % 2 = 0 then f else f + 1

/-- Format a percentile the way `"%s-percentile-%.0f"` does. -/
def fmt0f (q : ℚ) : String :=
  toString (roundHalfEven q)

/-- `statsd_metric_clear_set_unsafe` (renamed `_locked`; it must run under `metrics_lock`): pick every member out of the set,
leaving an (allocated) empty tree; a `NULL` set stays `NULL`. -/
def statsd_metric_clear_set_locked (m : StatsdMetric) : StatsdMetric :=
  { m with set := m.set.map (fun _ => ([] : List String)) }

/-- `statsd_metric_submit_unsafe` (renamed `_locked`; it must run under `metrics_lock`): the dispatched records, in call
order, and the metric as left behind (the timer branch resets the
histogram).  The timer branch keeps rewriting `vl.type_instance` and
finally flips `vl.type` to `"gauge"` for the `-count` series. -/
def statsd_metric_submit_locked (conf : StatsdConfig) (name : String)
    (metric : StatsdMetric) : List DispatchRecord × StatsdMetric :=
  let gp := conf.globalPre
  let gq := conf.globalPost
  let tp : String :=
    match metric.mtype with
    | .gauge => conf.gaugePre
    | .timer => conf.timerPre
    | .set => conf.setPre
    | .counter => conf.counterPre
  let full_name := nameTrunc (gp ++ tp ++ name ++ gq)
  match metric.mtype with
  | .gauge =>
      ([⟨conf.node_name, "gauge", full_name, .gauge metric.value⟩], metric)
  | .set =>
      let card : Nat :=
        match metric.set with
        | none => 0
        | some xs => xs.length
      ([⟨conf.node_name, "objects", full_name, .gauge (.fin card)⟩], metric)
  | .counter =>
      ([⟨conf.node_name, "derive", full_name, .derive metric.value.toDerive⟩,
        ⟨conf.node_name, "gauge", full_name, .gauge metric.value⟩], metric)
  | .timer =>
      let have_events := metric.updates_num > 0
      let avgName :=
        if conf.leave_metrics_name_asis then full_name
        else nameTrunc (full_name ++ "-average")
      let r1 : List DispatchRecord :=
        [⟨conf.node_name, "latency", avgName,
          .gauge (if have_events
                  then CDTIME_T_TO_DOUBLE (latency_counter_get_average metric.latency)
                  else .nan)⟩]
      let r2 : List DispatchRecord :=
        if conf.timer_lower then
          [⟨conf.node_name, "latency", nameTrunc (full_name ++ "-lower"),
            .gauge (if have_events
                    then CDTIME_T_TO_DOUBLE (latency_counter_get_min metric.latency)
                    else .nan)⟩]
        else []
      let r3 : List DispatchRecord :=
        if conf.timer_upper then
          [⟨conf.node_name, "latency", nameTrunc (full_name ++ "-upper"),
            .gauge (if have_events
                    then CDTIME_T_TO_DOUBLE (latency_counter_get_max metric.latency)
                    else .nan)⟩]
        else []
      let r4 : List DispatchRecord :=
        if conf.timer_sum then
          [⟨conf.node_name, "latency", nameTrunc (full_name ++ "-sum"),
            .gauge (if have_events
                    then CDTIME_T_TO_DOUBLE (latency_counter_get_sum metric.latency)
                    else .nan)⟩]
        else []
      let r5 : List DispatchRecord :=
        conf.timer_percentile.map (fun p =>
          ⟨conf.node_name, "latency",
           nameTrunc (full_name ++ "-percentile-" ++ fmt0f p),
           .gauge (if have_events
                   then CDTIME_T_TO_DOUBLE (latency_counter_get_percentile metric.latency p)
                   else .nan)⟩)
      let r6 : List DispatchRecord :=
        if conf.timer_count then
          [⟨conf.node_name, "gauge", nameTrunc (full_name ++ "-count"),
            .gauge (.fin (latency_counter_get_num metric.latency))⟩]
        else []
      (r1 ++ r2 ++ r3 ++ r4 ++ r5 ++ r6,
       { metric with latency := latency_counter_reset metric.latency })

/-- `delete_*` flag selection of `statsd_read`'s delete-on-idle test. -/
def deleteFlag (conf : StatsdConfig) : MetricType → Bool
  | .counter => conf.delete_counters
  | .timer => conf.delete_timers
  | .gauge => conf.delete_gauges
  | .set => conf.delete_sets

/-- The state a surviving entry is left in by one `statsd_read` pass:
submitted (timers reset their histogram), `updates_num` zeroed, set
membership cleared. -/
def flushMetric (conf : StatsdConfig) (k : String) (m : StatsdMetric) : StatsdMetric :=
  let m1 := (statsd_metric_submit_locked conf ⟨k.data.drop 2⟩ m).2
  let m2 := { m1 with updates_num := 0 }
  if m2.mtype = MetricType.set then statsd_metric_clear_set_locked m2 else m2

/-- The iteration of `statsd_read` over one node's registry, in
`c_avl_iterator_next` (key) order: entries with `updates_num == 0`
whose type's `Delete*` flag is set are skipped and collected for
removal, every other entry is submitted and reset.  The deferred
`c_avl_remove` loop removes exactly the skipped keys, so the net effect
is the filter below. -/
def statsd_read_go (conf : StatsdConfig) : Registry → Registry × List DispatchRecord
  | [] => ([], [])
  | (k, m) :: rest =>
      let tail := statsd_read_go conf rest
      if m.updates_num = 0 ∧ deleteFlag conf m.mtype = true then tail
      else
        ((k, flushMetric conf k m) :: tail.1,
         (statsd_metric_submit_locked conf ⟨k.data.drop 2⟩ m).1 ++ tail.2)

/-- One `statsd_read` pass over a single node: the registry afterwards
and the records dispatched (in order). -/
def statsd_read_node (conf : StatsdConfig) (s : Registry) :
    Registry × List DispatchRecord :=
  statsd_read_go conf s

/-- Split a buffer on `'\n'` the way `statsd_parse_buffer`'s `strchr`
loop does (a trailing segment without a newline is also produced). -/
def splitOnNl : List Char → List (List Char)
  | [] => [[]]
  | c :: rest =>
      if c = '\n' then [] :: splitOnNl rest
      else
        match splitOnNl rest with
        | [] => [[c]]
        | l :: ls => (c :: l) :: ls

/-- `statsd_parse_buffer`: handle each nonempty line, ignoring per-line
failures (they are only logged). -/
def statsd_parse_buffer (plan : AllocPlan) (s : Registry) (buffer : String) :
    Registry :=
  (splitOnNl buffer.data).foldl
    (fun st line => if line = [] then st else (statsd_parse_line plan st ⟨line⟩).2) s

/-! Observers on registries, used to state the claims. -/

/-- The stored value under a key (`0.0`, the `memset` default, when the
key is absent). -/
def valueOf (s : Registry) (k : String) : GVal :=
  match registryGet s k with
  | none => .fin 0
  | some m => m.value

/-- The `updates_num` under a key (`0` when absent). -/
def updatesOf (s : Registry) (k : String) : Nat :=
  match registryGet s k with
  | none => 0
  | some m => m.updates_num

/-- The set membership under a key (`[]` for an absent key or a `NULL`
set). -/
def membersOf (s : Registry) (k : String) : List String :=
  match registryGet s k with
  | none => []
  | some m => m.set.getD []

/-- The recorded latency samples under a key (`[]` for an absent key or
a `NULL` histogram). -/
def samplesOf (s : Registry) (k : String) : List Nat :=
  match registryGet s k with
  | none => []
  | some m =>
      match m.latency with
      | none => []
      | some lc => lc.samples

/-- The value of the counter named `n`. -/
def counterValue (s : Registry) (n : String) : GVal :=
  valueOf s (metricKey .counter n)

/-- The value of the gauge named `n`. -/
def gaugeValue (s : Registry) (n : String) : GVal :=
  valueOf s (metricKey .gauge n)

/-- Two registries that agree on every observable (counts, values, set
members, samples) at every key. -/
def ObsEq (s s' : Registry) : Prop :=
  ∀ k, updatesOf s' k = updatesOf s k ∧ valueOf s' k = valueOf s k ∧
    membersOf s' k = membersOf s k ∧ samplesOf s' k = samplesOf s k

/-- The metric an update works on: the stored one, or the fresh
`memset`-zeroed one that lookup inserts. -/
def getOrBlank (s : Registry) (t : MetricType) (n : String) : StatsdMetric :=
  match registryGet s (metricKey t n) with
  | none => blankMetric t
  | some m => m

/-- The delete-on-idle test of `statsd_read` as a boolean. -/
def idleDelete (conf : StatsdConfig) (m : StatsdMetric) : Bool :=
  m.updates_num == 0 && deleteFlag conf m.mtype

/-- Dedup-insertion into a member list: the effect of `c_avl_insert` of
one member on the modelled membership. -/
def insertDedup (xs : List String) (x : String) : List String :=
  if x ∈ xs then xs else xs ++ [x]

/-- A sequence of set updates for one name within a flush interval. -/
def applySetUpdates (s : Registry) (n : String) (ms : List String) : Registry :=
  ms.foldl (fun st mem => (statsd_handle_set allocOk st n mem).2) s

/-- Structural invariant of a registry entry: the key prefix encodes the
stored type, non-timers own no histogram, and an entry with no updates
since the last flush has an empty histogram. -/
def EntryInv (k : String) (m : StatsdMetric) : Prop :=
  k.data.take 2 = [typeChar m.mtype, ':'] ∧
  (m.mtype ≠ MetricType.timer → m.latency = none) ∧
  (m.updates_num = 0 → latency_counter_get_num m.latency = 0)

/-- The invariant over a whole registry. -/
def RegistryInv (s : Registry) : Prop :=
  ∀ kv ∈ s, EntryInv kv.1 kv.2

/-- The registries a node can be in: empty at start, then any
interleaving of received datagrams (with arbitrary allocation outcomes)
and flush passes. -/
inductive Reachable (conf : StatsdConfig) : Registry → Prop where
  | empty : Reachable conf []
  | recv (plan : AllocPlan) (buf : String) {s : Registry} :
      Reachable conf s → Reachable conf (statsd_parse_buffer plan s buf)
  | flush {s : Registry} :
      Reachable conf s → Reachable conf (statsd_read_node conf s).1

/-- A configuration with every optional timer series and two
percentiles enabled (used to exercise the timer flush). -/
def confC6 : StatsdConfig :=
  { defaultConf with
    timer_lower := true
    timer_upper := true
    timer_sum := true
    timer_count := true
    timer_percentile := [50, 90] }

/-- A timer metric holding three samples. -/
def mTimer3 : StatsdMetric :=
  ⟨MetricType.timer, GVal.fin 0, some ⟨[7, 3, 5]⟩, none, 3⟩

/-- A configuration with only `TimerCount` enabled. -/
def confC5 : StatsdConfig :=
  { defaultConf with timer_count := true }

/-- The state of a timer metric one flush after its last sample:
histogram allocated but empty, `updates_num` zero. -/
def mTimerIdle : StatsdMetric :=
  ⟨MetricType.timer, GVal.fin 0, some ⟨[]⟩, none, 0⟩

/-! Basic facts about strings, splitting and the registry. -/

theorem str_data_append (a b : String) : (a ++ b).data = a.data ++ b.data := by
  cases a; cases b; rfl

theorem str_mk_data (s : String) : String.mk s.data = s := by
  cases s; rfl

theorem str_ext {a b : String} (h : a.data = b.data) : a = b :=
  congrArg String.mk h

theorem splitFirst_append {l1 : List Char} (l2 : List Char) {c : Char}
    (h : c ∉ l1) : splitFirst (l1 ++ c :: l2) c = some (l1, l2) := by
  induction l1 with
  | nil => simp [splitFirst]
  | cons x xs ih =>
      have hx : x ≠ c := fun hxc => h (hxc ▸ List.mem_cons_self x xs)
      have hxs : c ∉ xs := fun hm => h (List.mem_cons_of_mem _ hm)
      simp [splitFirst, hx, ih hxs]

theorem splitLast_append {l2 : List Char} (l1 : List Char) {c : Char}
    (h : c ∉ l2) : splitLast (l1 ++ c :: l2) c = some (l1, l2) := by
  have hrev : (l1 ++ c :: l2).reverse = l2.reverse ++ c :: l1.reverse := by
    rw [List.reverse_append, List.reverse_cons, List.append_assoc]
    simp
  have hmem : c ∉ l2.reverse := by simpa using h
  unfold splitLast
  rw [hrev, splitFirst_append _ hmem]
  simp

theorem registryGet_registryApply_self (s : Registry) (k : String)
    (f : StatsdMetric → StatsdMetric) :
    registryGet (registryApply s k f) k = (registryGet s k).map f := by
  induction s with
  | nil => rfl
  | cons kv rest ih =>
      obtain ⟨k0, m⟩ := kv
      by_cases h : k0 = k
      · subst h
        simp [registryApply, registryGet]
      · simp [registryApply, registryGet, h, ih]

theorem registryGet_registryApply_ne (s : Registry) {k k' : String}
    (f : StatsdMetric → StatsdMetric) (h : k' ≠ k) :
    registryGet (registryApply s k f) k' = registryGet s k' := by
  induction s with
  | nil => rfl
  | cons kv rest ih =>
      obtain ⟨k0, m⟩ := kv
      by_cases h0 : k0 = k
      · subst h0
        have h2 : ¬ (k0 = k') := fun he => h he.symm
        simp [registryApply, registryGet, h2, ih]
      · by_cases h1 : k0 = k'
        · subst h1
          simp [registryApply, registryGet, h0]
        · simp [registryApply, registryGet, h0, h1, ih]

theorem registryGet_registryInsert_self (s : Registry) (k : String)
    (v : StatsdMetric) (h : registryGet s k = none) :
    registryGet (registryInsert s k v) k = some v := by
  induction s with
  | nil => simp [registryInsert, registryGet]
  | cons kv rest ih =>
      obtain ⟨k0, m⟩ := kv
      have h0 : ¬ (k0 = k) := by
        intro he
        simp [registryGet, he] at h
      have hrest : registryGet rest k = none := by
        simpa [registryGet, h0] using h
      by_cases hlt : strLt k k0 = true
      · simp [registryInsert, hlt, registryGet]
      · simp [registryInsert, hlt, registryGet, h0, ih hrest]

theorem registryGet_registryInsert_ne (s : Registry) {k k' : String}
    (v : StatsdMetric) (h : k' ≠ k) :
    registryGet (registryInsert s k v) k' = registryGet s k' := by
  induction s with
  | nil =>
      have : ¬ (k = k') := fun he => h he.symm
      simp [registryInsert, registryGet, this]
  | cons kv rest ih =>
      obtain ⟨k0, m⟩ := kv
      have hk : ¬ (k = k') := fun he => h he.symm
      by_cases hlt : strLt k k0 = true
      · simp [registryInsert, hlt, registryGet, hk]
      · by_cases h1 : k0 = k'
        · subst h1
          simp [registryInsert, hlt, registryGet]
        · simp [registryInsert, hlt, registryGet, h1, ih]

theorem mem_registryInsert {s : Registry} {k : String} {v : StatsdMetric}
    {kv : String × StatsdMetric} (h : kv ∈ registryInsert s k v) :
    kv = (k, v) ∨ kv ∈ s := by
  induction s with
  | nil => simpa [registryInsert] using h
  | cons kv0 rest ih =>
      obtain ⟨k0, m0⟩ := kv0
      by_cases hlt : strLt k k0 = true
      · have h' : kv ∈ (k, v) :: (k0, m0) :: rest := by
          simpa [registryInsert, hlt] using h
        rcases List.mem_cons.mp h' with h1 | h1
        · exact Or.inl h1
        · exact Or.inr h1
      · have h' : kv ∈ (k0, m0) :: registryInsert rest k v := by
          simpa [registryInsert, hlt] using h
        rcases List.mem_cons.mp h' with h1 | h1
        · exact Or.inr (h1 ▸ List.mem_cons_self _ _)
        · rcases ih h1 with h2 | h2
          · exact Or.inl h2
          · exact Or.inr (List.mem_cons_of_mem _ h2)

theorem getOrBlank_value (s : Registry) (t : MetricType) (n : String) :
    (getOrBlank s t n).value = valueOf s (metricKey t n) := by
  unfold getOrBlank valueOf
  cases registryGet s (metricKey t n) <;> rfl

theorem getOrBlank_updates (s : Registry) (t : MetricType) (n : String) :
    (getOrBlank s t n).updates_num = updatesOf s (metricKey t n) := by
  unfold getOrBlank updatesOf
  cases registryGet s (metricKey t n) <;> rfl

theorem lookup_allocOk_spec (s : Registry) (t : MetricType) (n : String) :
    ∃ s', statsd_metric_lookup_locked allocOk s t n = some s' ∧
      registryGet s' (metricKey t n) = some (getOrBlank s t n) ∧
      ∀ k', k' ≠ metricKey t n → registryGet s' k' = registryGet s k' := by
  cases hget : registryGet s (metricKey t n) with
  | some m =>
      refine ⟨s, ?_, ?_, fun k' _ => rfl⟩
      · simp [statsd_metric_lookup_locked, hget]
      · simp [getOrBlank, hget]
  | none =>
      refine ⟨registryInsert s (metricKey t n) (blankMetric t), ?_, ?_, ?_⟩
      · simp [statsd_metric_lookup_locked, hget, allocOk]
      · rw [registryGet_registryInsert_self s _ _ hget]
        simp [getOrBlank, hget]
      · intro k' hk'
        exact registryGet_registryInsert_ne s _ hk'

theorem metric_add_allocOk_spec (s : Registry) (n : String) (v : GVal)
    (t : MetricType) :
    (statsd_metric_add allocOk s n v t).1 = true ∧
    registryGet (statsd_metric_add allocOk s n v t).2 (metricKey t n) =
      some { getOrBlank s t n with
               value := (getOrBlank s t n).value.add v,
               updates_num := (getOrBlank s t n).updates_num + 1 } ∧
    ∀ k', k' ≠ metricKey t n →
      registryGet (statsd_metric_add allocOk s n v t).2 k' = registryGet s k' := by
  obtain ⟨s', hs', hget, hother⟩ := lookup_allocOk_spec s t n
  unfold statsd_metric_add
  rw [hs']
  refine ⟨rfl, ?_, ?_⟩
  · rw [registryGet_registryApply_self, hget]
    rfl
  · intro k' hk'
    rw [registryGet_registryApply_ne _ _ hk', hother k' hk']

theorem parse_line_counter_rate (plan : AllocPlan) (s : Registry) (n v r : String)
    (hn : ('|' : Char) ∉ n.data) (hv : ('|' : Char) ∉ v.data)
    (hv2 : (':' : Char) ∉ v.data) :
    statsd_parse_line plan s (n ++ ":" ++ v ++ "|c|@" ++ r)
      = statsd_handle_counter plan s n v (some ("@" ++ r)) := by
  have d1 : (":" : String).data = [':'] := rfl
  have d2 : ("|c|@" : String).data = ['|', 'c', '|', '@'] := rfl
  have e1 : (n ++ ":" ++ v ++ "|c|@" ++ r).data
      = (n.data ++ ':' :: v.data) ++ '|' :: 'c' :: '|' :: '@' :: r.data := by
    simp [str_data_append, d1, d2]
  have hnv : ('|' : Char) ∉ n.data ++ ':' :: v.data := by
    simp [List.mem_append, List.mem_cons, hn, hv]
  have hsf : splitFirst ((n.data ++ ':' :: v.data) ++ '|' :: 'c' :: '|' :: '@' :: r.data) '|'
      = some (n.data ++ ':' :: v.data, 'c' :: '|' :: '@' :: r.data) :=
    splitFirst_append _ hnv
  have hsl : splitLast (n.data ++ ':' :: v.data) ':' = some (n.data, v.data) :=
    splitLast_append _ hv2
  have hsf2 : splitFirst ('c' :: '|' :: '@' :: r.data) '|'
      = some (['c'], '@' :: r.data) := by
    simp [splitFirst]
  have hext : (String.mk ('@' :: r.data)) = "@" ++ r :=
    str_ext (by simp [str_data_append])
  simp only [statsd_parse_line, e1, hsf, hsl, hsf2]
  simp [str_mk_data, hext]

theorem parse_line_counter_norate (plan : AllocPlan) (s : Registry) (n v : String)
    (hn : ('|' : Char) ∉ n.data) (hv : ('|' : Char) ∉ v.data)
    (hv2 : (':' : Char) ∉ v.data) :
    statsd_parse_line plan s (n ++ ":" ++ v ++ "|c")
      = statsd_handle_counter plan s n v none := by
  have d1 : (":" : String).data = [':'] := rfl
  have d2 : ("|c" : String).data = ['|', 'c'] := rfl
  have e1 : (n ++ ":" ++ v ++ "|c").data
      = (n.data ++ ':' :: v.data) ++ '|' :: ['c'] := by
    simp [str_data_append, d1, d2]
  have hnv : ('|' : Char) ∉ n.data ++ ':' :: v.data := by
    simp [List.mem_append, List.mem_cons, hn, hv]
  have hsf : splitFirst ((n.data ++ ':' :: v.data) ++ '|' :: ['c']) '|'
      = some (n.data ++ ':' :: v.data, ['c']) :=
    splitFirst_append _ hnv
  have hsl : splitLast (n.data ++ ':' :: v.data) ':' = some (n.data, v.data) :=
    splitLast_append _ hv2
  have hsf2 : splitFirst ['c'] '|' = none := by
    simp [splitFirst]
  simp only [statsd_parse_line, e1, hsf, hsl, hsf2]
  simp [str_mk_data]

theorem parse_line_gauge (plan : AllocPlan) (s : Registry) (n v : String)
    (hn : ('|' : Char) ∉ n.data) (hv : ('|' : Char) ∉ v.data)
    (hv2 : (':' : Char) ∉ v.data) :
    statsd_parse_line plan s (n ++ ":" ++ v ++ "|g")
      = statsd_handle_gauge plan s n v := by
  have d1 : (":" : String).data = [':'] := rfl
  have d2 : ("|g" : String).data = ['|', 'g'] := rfl
  have e1 : (n ++ ":" ++ v ++ "|g").data
      = (n.data ++ ':' :: v.data) ++ '|' :: ['g'] := by
    simp [str_data_append, d1, d2]
  have hnv : ('|' : Char) ∉ n.data ++ ':' :: v.data := by
    simp [List.mem_append, List.mem_cons, hn, hv]
  have hsf : splitFirst ((n.data ++ ':' :: v.data) ++ '|' :: ['g']) '|'
      = some (n.data ++ ':' :: v.data, ['g']) :=
    splitFirst_append _ hnv
  have hsl : splitLast (n.data ++ ':' :: v.data) ':' = some (n.data, v.data) :=
    splitLast_append _ hv2
  have hsf2 : splitFirst ['g'] '|' = none := by
    simp [splitFirst]
  simp only [statsd_parse_line, e1, hsf, hsl, hsf2]
  simp [str_mk_data]

theorem handle_counter_rate_spec (s : Registry) (n v r : String) {b q : ℚ}
    (hpv : statsd_parse_value v = some (GVal.fin b))
    (hpr : statsd_parse_value r = some (GVal.fin q))
    (hq0 : 0 < q) (hq1 : q ≤ 1) :
    statsd_handle_counter allocOk s n v (some ("@" ++ r))
      = statsd_metric_add allocOk s n (GVal.fin (b / q)) .counter := by
  have hdat : ("@" ++ r).data = '@' :: r.data := by simp [str_data_append]
  have hat : extraAtOk (some ("@" ++ r)) = true := by
    simp [extraAtOk, hdat]
  have hscale : scaleOf (some ("@" ++ r)) = some q := by
    simp [scaleOf, hdat, str_mk_data, hpr, hq0, hq1]
  have hdiv : (GVal.fin b).div (GVal.fin q) = GVal.fin (b / q) := by
    have hq : ¬ (q = 0) := ne_of_gt hq0
    simp [GVal.div, hq]
  simp [statsd_handle_counter, hat, hscale, hpv, hdiv]

theorem handle_counter_norate_spec (s : Registry) (n v : String) {b : ℚ}
    (hpv : statsd_parse_value v = some (GVal.fin b)) :
    statsd_handle_counter allocOk s n v none
      = statsd_metric_add allocOk s n (GVal.fin b) .counter := by
  have hdiv : (GVal.fin b).div (GVal.fin 1) = GVal.fin b := by
    norm_num [GVal.div]
  simp [statsd_handle_counter, extraAtOk, scaleOf, hpv, hdiv]

theorem metric_set_allocOk_spec (s : Registry) (n : String) (v : GVal)
    (t : MetricType) :
    (statsd_metric_set allocOk s n v t).1 = true ∧
    registryGet (statsd_metric_set allocOk s n v t).2 (metricKey t n) =
      some { getOrBlank s t n with
               value := v,
               updates_num := (getOrBlank s t n).updates_num + 1 } ∧
    ∀ k', k' ≠ metricKey t n →
      registryGet (statsd_metric_set allocOk s n v t).2 k' = registryGet s k' := by
  obtain ⟨s', hs', hget, hother⟩ := lookup_allocOk_spec s t n
  unfold statsd_metric_set
  rw [hs']
  refine ⟨rfl, ?_, ?_⟩
  · rw [registryGet_registryApply_self, hget]
    rfl
  · intro k' hk'
    rw [registryGet_registryApply_ne _ _ hk', hother k' hk']

/-! Claim theorems. -/

/-- C1: for every well-formed counter line `"n:v|c|@r"` with sample
rate `r ∈ (0,1]`, applying the line changes the counter named `n` by
exactly `v/r`; with the `"@r"` part absent the change is exactly `v`;
and after the two lines `"page.views:1|c"` and `"page.views:1|c|@0.1"`
the flush dispatches one `derive` sample with value `11` and one
`gauge` sample with value `11.0` for `page.views`. -/
theorem C1_counter_net_change (s : Registry) (n v r : String) (a b q : ℚ)
    (hn : ('|' : Char) ∉ n.data) (hv : ('|' : Char) ∉ v.data)
    (hv2 : (':' : Char) ∉ v.data)
    (hpv : statsd_parse_value v = some (GVal.fin b))
    (hpr : statsd_parse_value r = some (GVal.fin q))
    (hq0 : 0 < q) (hq1 : q ≤ 1)
    (hold : counterValue s n = GVal.fin a) :
    ((statsd_parse_line allocOk s (n ++ ":" ++ v ++ "|c|@" ++ r)).1 = true ∧
      counterValue (statsd_parse_line allocOk s (n ++ ":" ++ v ++ "|c|@" ++ r)).2 n
        = GVal.fin (a + b / q)) ∧
    ((statsd_parse_line allocOk s (n ++ ":" ++ v ++ "|c")).1 = true ∧
      counterValue (statsd_parse_line allocOk s (n ++ ":" ++ v ++ "|c")).2 n
        = GVal.fin (a + b)) ∧
    (statsd_read_node defaultConf
        (statsd_parse_buffer allocOk [] "page.views:1|c\npage.views:1|c|@0.1\n")).2
      = [⟨"default", "derive", "page.views", VListVal.derive 11⟩,
         ⟨"default", "gauge", "page.views", VListVal.gauge (GVal.fin 11)⟩] := by
  have hgob : (getOrBlank s .counter n).value = GVal.fin a := by
    rw [getOrBlank_value]; exact hold
  refine ⟨?_, ?_, ?_⟩
  · rw [parse_line_counter_rate allocOk s n v r hn hv hv2,
        handle_counter_rate_spec s n v r hpv hpr hq0 hq1]
    obtain ⟨h1, h2, _⟩ := metric_add_allocOk_spec s n (GVal.fin (b / q)) .counter
    refine ⟨h1, ?_⟩
    unfold counterValue valueOf
    rw [h2]
    simp [hgob, GVal.add]
  · rw [parse_line_counter_norate allocOk s n v hn hv hv2,
        handle_counter_norate_spec s n v hpv]
    obtain ⟨h1, h2, _⟩ := metric_add_allocOk_spec s n (GVal.fin b) .counter
    refine ⟨h1, ?_⟩
    unfold counterValue valueOf
    rw [h2]
    simp [hgob, GVal.add]
  · with_unfolding_all decide

/-- Witness for C1 at the concrete line `"page.views:2|c|@0.5"` (and
`"page.views:2|c"`), from the empty registry. -/
theorem C1_counter_net_change_witness :
    ((statsd_parse_line allocOk []
        ("page.views" ++ ":" ++ "2" ++ "|c|@" ++ "0.5")).1 = true ∧
      counterValue (statsd_parse_line allocOk []
        ("page.views" ++ ":" ++ "2" ++ "|c|@" ++ "0.5")).2 "page.views"
        = GVal.fin (0 + 2 / (1 / 2))) ∧
    ((statsd_parse_line allocOk [] ("page.views" ++ ":" ++ "2" ++ "|c")).1 = true ∧
      counterValue (statsd_parse_line allocOk []
        ("page.views" ++ ":" ++ "2" ++ "|c")).2 "page.views"
        = GVal.fin (0 + 2)) ∧
    (statsd_read_node defaultConf
        (statsd_parse_buffer allocOk [] "page.views:1|c\npage.views:1|c|@0.1\n")).2
      = [⟨"default", "derive", "page.views", VListVal.derive 11⟩,
         ⟨"default", "gauge", "page.views", VListVal.gauge (GVal.fin 11)⟩] :=
  C1_counter_net_change [] "page.views" "2" "0.5" 0 2 (1 / 2)
    (by with_unfolding_all decide) (by with_unfolding_all decide)
    (by with_unfolding_all decide) (by with_unfolding_all decide)
    (by with_unfolding_all decide) (by with_unfolding_all decide)
    (by with_unfolding_all decide) (by with_unfolding_all decide)

/-- C2: for every gauge line, a textual value beginning with `'+'` or
`'-'` adds the signed value to the current gauge value, any other value
replaces it; `"g:10|g"` then `"g:+3|g"` yields `13`, and `"g:10|g"`
then `"g:-4|g"` yields `6`. -/
theorem C2_gauge_signed_vs_absolute :
    (∀ (s : Registry) (n v : String) (w : GVal) (rest : List Char),
        ('|' : Char) ∉ n.data → ('|' : Char) ∉ v.data → (':' : Char) ∉ v.data →
        statsd_parse_value v = some w →
        (v.data = '+' :: rest ∨ v.data = '-' :: rest) →
        (statsd_parse_line allocOk s (n ++ ":" ++ v ++ "|g")).1 = true ∧
        gaugeValue (statsd_parse_line allocOk s (n ++ ":" ++ v ++ "|g")).2 n
          = (gaugeValue s n).add w) ∧
    (∀ (s : Registry) (n v : String) (w : GVal),
        ('|' : Char) ∉ n.data → ('|' : Char) ∉ v.data → (':' : Char) ∉ v.data →
        statsd_parse_value v = some w →
        (∀ c rest, v.data = c :: rest → c ≠ '+' ∧ c ≠ '-') →
        (statsd_parse_line allocOk s (n ++ ":" ++ v ++ "|g")).1 = true ∧
        gaugeValue (statsd_parse_line allocOk s (n ++ ":" ++ v ++ "|g")).2 n = w) ∧
    gaugeValue (statsd_parse_buffer allocOk [] "g:10|g\ng:+3|g\n") "g"
      = GVal.fin 13 ∧
    gaugeValue (statsd_parse_buffer allocOk [] "g:10|g\ng:-4|g\n") "g"
      = GVal.fin 6 := by
  refine ⟨?_, ?_, by with_unfolding_all decide, by with_unfolding_all decide⟩
  · intro s n v w rest hn hv hv2 hpv hsign
    rw [parse_line_gauge allocOk s n v hn hv hv2]
    have hred : statsd_handle_gauge allocOk s n v
        = statsd_metric_add allocOk s n w .gauge := by
      rcases hsign with hs | hs <;> simp [statsd_handle_gauge, hpv, hs]
    rw [hred]
    obtain ⟨h1, h2, _⟩ := metric_add_allocOk_spec s n w .gauge
    refine ⟨h1, ?_⟩
    unfold gaugeValue valueOf
    rw [h2]
    simp [getOrBlank_value, valueOf]
  · intro s n v w hn hv hv2 hpv hno
    rw [parse_line_gauge allocOk s n v hn hv hv2]
    have hred : statsd_handle_gauge allocOk s n v
        = statsd_metric_set allocOk s n w .gauge := by
      unfold statsd_handle_gauge
      split
      · rename_i heq
        rw [heq] at hpv
        cases hpv
      · rename_i w' heq
        rw [hpv] at heq
        injection heq with hw
        subst hw
        split
        · rename_i rest2 heq2
          exact absurd rfl ((hno '+' rest2 heq2).1)
        · rename_i rest2 heq2
          exact absurd rfl ((hno '-' rest2 heq2).2)
        · rfl
    rw [hred]
    obtain ⟨h1, h2, _⟩ := metric_set_allocOk_spec s n w .gauge
    refine ⟨h1, ?_⟩
    unfold gaugeValue valueOf
    rw [h2]

/-- Witness for C2: a signed update `"+3"` on a gauge holding `10`, an
absolute update `"7"` on the same registry, and the two concrete
two-line scenarios. -/
theorem C2_gauge_signed_vs_absolute_witness :
    ((statsd_parse_line allocOk (statsd_parse_buffer allocOk [] "g:10|g\n")
        ("g" ++ ":" ++ "+3" ++ "|g")).1 = true ∧
      gaugeValue (statsd_parse_line allocOk (statsd_parse_buffer allocOk [] "g:10|g\n")
        ("g" ++ ":" ++ "+3" ++ "|g")).2 "g"
        = (gaugeValue (statsd_parse_buffer allocOk [] "g:10|g\n") "g").add
            (GVal.fin 3)) ∧
    ((statsd_parse_line allocOk (statsd_parse_buffer allocOk [] "g:10|g\n")
        ("g" ++ ":" ++ "7" ++ "|g")).1 = true ∧
      gaugeValue (statsd_parse_line allocOk (statsd_parse_buffer allocOk [] "g:10|g\n")
        ("g" ++ ":" ++ "7" ++ "|g")).2 "g" = GVal.fin 7) :=
  ⟨C2_gauge_signed_vs_absolute.1 (statsd_parse_buffer allocOk [] "g:10|g\n")
      "g" "+3" (GVal.fin 3) ['3']
      (by with_unfolding_all decide) (by with_unfolding_all decide)
      (by with_unfolding_all decide) (by with_unfolding_all decide)
      (Or.inl (by with_unfolding_all decide)),
   C2_gauge_signed_vs_absolute.2.1 (statsd_parse_buffer allocOk [] "g:10|g\n")
      "g" "7" (GVal.fin 7)
      (by with_unfolding_all decide) (by with_unfolding_all decide)
      (by with_unfolding_all decide) (by with_unfolding_all decide)
      (by
        intro c rest h
        have hd : ("7" : String).data = ['7'] := rfl
        rw [hd] at h
        injection h with h1 h2
        subst h1
        exact ⟨by decide, by decide⟩)⟩

theorem splitOnNl_append (l1 l2 : List Char) (h : ('\n' : Char) ∉ l1) :
    splitOnNl (l1 ++ '\n' :: l2) = l1 :: splitOnNl l2 := by
  induction l1 with
  | nil => simp [splitOnNl]
  | cons x xs ih =>
      have hx : ¬ (x = '\n') := fun hxc => h (hxc ▸ List.mem_cons_self x xs)
      have hxs : ('\n' : Char) ∉ xs := fun hm => h (List.mem_cons_of_mem _ hm)
      rw [List.cons_append]
      simp only [splitOnNl]
      rw [if_neg hx, ih hxs]

/-- C7 counterexample: the line `":5|c"` is *accepted* by
`statsd_parse_line` (status 0) and creates a registry entry — the
counter with empty name, key `"c:"`, value `5` — contradicting the
claim that it is rejected without creating or modifying any entry. -/
theorem C7_colon5_line_accepted :
    (statsd_parse_line allocOk [] ":5|c").1 = true ∧
    registryGet (statsd_parse_line allocOk [] ":5|c").2 "c:"
      = some ⟨MetricType.counter, GVal.fin 5, none, none, 1⟩ := by
  with_unfolding_all decide

/-- C7 (amended): in the datagram `"broken|c\n:5|c\nok:1|c\n"` the
line `"broken|c"` is rejected leaving the registry unchanged, but
`":5|c"` is accepted and adds `5` to the counter with empty name; the
counter `ok` still ends with net change `+1`; and a malformed line
never aborts the datagram — the remaining lines are processed from the
state the failed line left behind. -/
theorem C7_malformed_lines (sr : Registry) :
    statsd_parse_line allocOk sr "broken|c" = (false, sr) ∧
    (counterValue (statsd_parse_buffer allocOk [] "broken|c\n:5|c\nok:1|c\n") "ok"
        = GVal.fin 1 ∧
     counterValue (statsd_parse_buffer allocOk [] "broken|c\n:5|c\nok:1|c\n") ""
        = GVal.fin 5) ∧
    (∀ (plan : AllocPlan) (s : Registry) (line buf : String),
        ('\n' : Char) ∉ line.data →
        statsd_parse_buffer plan s (line ++ "\n" ++ buf)
          = statsd_parse_buffer plan
              (if line.data = [] then s else (statsd_parse_line plan s line).2) buf) := by
  refine ⟨?_, ⟨by with_unfolding_all decide, by with_unfolding_all decide⟩, ?_⟩
  · have h1 : splitFirst ("broken|c" : String).data '|'
        = some (("broken" : String).data, ['c']) := rfl
    have h2 : splitLast ("broken" : String).data ':' = none := rfl
    simp [statsd_parse_line, h1, h2]
  · intro plan s line buf hnl
    have d1 : ("\n" : String).data = ['\n'] := rfl
    have e1 : (line ++ "\n" ++ buf).data = line.data ++ '\n' :: buf.data := by
      simp [str_data_append, d1]
    unfold statsd_parse_buffer
    rw [e1, splitOnNl_append _ _ hnl, List.foldl_cons]

/-- Witness for C7's amended theorem: its universally quantified parts
instantiated at a nonempty registry and at a concrete two-line buffer. -/
theorem C7_malformed_lines_witness :
    statsd_parse_line allocOk
        [("c:ok", ⟨MetricType.counter, GVal.fin 1, none, none, 1⟩)] "broken|c"
      = (false, [("c:ok", ⟨MetricType.counter, GVal.fin 1, none, none, 1⟩)]) ∧
    statsd_parse_buffer allocOk [] ("broken|c" ++ "\n" ++ "ok:1|c\n")
      = statsd_parse_buffer allocOk
          (if ("broken|c" : String).data = [] then []
           else (statsd_parse_line allocOk [] "broken|c").2) "ok:1|c\n" :=
  ⟨(C7_malformed_lines
      [("c:ok", ⟨MetricType.counter, GVal.fin 1, none, none, 1⟩)]).1,
   (C7_malformed_lines []).2.2 allocOk [] "broken|c" "ok:1|c\n"
      (by with_unfolding_all decide)⟩

/-- C9: registry keys keep only the first `DATA_MAX_NAME_LEN - 1` bytes
of the metric name, so two distinct names agreeing on that prefix build
the same key and their same-type updates silently target the same
entry; no error is reported for over-long names. -/
theorem C9_key_truncation_aliasing (t : MetricType) (n1 n2 : String)
    (hne : n1 ≠ n2)
    (hagree : n1.data.take (DATA_MAX_NAME_LEN - 1)
      = n2.data.take (DATA_MAX_NAME_LEN - 1)) :
    metricKey t n1 = metricKey t n2 ∧
    ∀ (s : Registry) (a v : ℚ), counterValue s n2 = GVal.fin a →
      (statsd_metric_add allocOk s n1 (GVal.fin v) .counter).1 = true ∧
      counterValue (statsd_metric_add allocOk s n1 (GVal.fin v) .counter).2 n2
        = GVal.fin (a + v) := by
  have hkey : ∀ t' : MetricType, metricKey t' n1 = metricKey t' n2 := by
    intro t'
    exact str_ext (by simp [metricKey, hagree])
  refine ⟨hkey t, ?_⟩
  intro s a v hold
  obtain ⟨h1, h2, _⟩ := metric_add_allocOk_spec s n1 (GVal.fin v) .counter
  refine ⟨h1, ?_⟩
  have hgob : (getOrBlank s .counter n1).value = GVal.fin a := by
    rw [getOrBlank_value, hkey .counter]
    exact hold
  unfold counterValue valueOf
  rw [← hkey .counter, h2]
  simp [hgob, GVal.add]

/-- Witness for C9: two distinct 64-byte names agreeing on their first
63 bytes, from the empty registry. -/
theorem C9_key_truncation_aliasing_witness :
    metricKey .counter
        "aaaaaaaaaaaaaaaaaaaaaaaaaaaaaaaaaaaaaaaaaaaaaaaaaaaaaaaaaaaaaaab"
      = metricKey .counter
        "aaaaaaaaaaaaaaaaaaaaaaaaaaaaaaaaaaaaaaaaaaaaaaaaaaaaaaaaaaaaaaac" ∧
    ∀ (s : Registry) (a v : ℚ),
      counterValue s
          "aaaaaaaaaaaaaaaaaaaaaaaaaaaaaaaaaaaaaaaaaaaaaaaaaaaaaaaaaaaaaaac"
        = GVal.fin a →
      (statsd_metric_add allocOk s
          "aaaaaaaaaaaaaaaaaaaaaaaaaaaaaaaaaaaaaaaaaaaaaaaaaaaaaaaaaaaaaaab"
          (GVal.fin v) .counter).1 = true ∧
      counterValue (statsd_metric_add allocOk s
          "aaaaaaaaaaaaaaaaaaaaaaaaaaaaaaaaaaaaaaaaaaaaaaaaaaaaaaaaaaaaaaab"
          (GVal.fin v) .counter).2
          "aaaaaaaaaaaaaaaaaaaaaaaaaaaaaaaaaaaaaaaaaaaaaaaaaaaaaaaaaaaaaaac"
        = GVal.fin (a + v) :=
  C9_key_truncation_aliasing .counter _ _
    (by with_unfolding_all decide) (by with_unfolding_all decide)

/-- C10: numeric value fields are accepted whenever `strtod` consumes
the whole token, with no finiteness check — `"nan"`/`"inf"` parse and
propagate into the stored value — while the sample-rate field after
`'@'` is rejected when non-finite or out of `(0, 1]`. -/
theorem C10_no_finiteness_check_on_values :
    (statsd_parse_value "nan" = some GVal.nan ∧
     statsd_parse_value "inf" = some GVal.inf) ∧
    (∀ (s : Registry) (n v : String) (w : GVal),
        statsd_parse_value v = some w →
        (statsd_handle_counter allocOk s n v none).1 = true ∧
        valueOf (statsd_handle_counter allocOk s n v none).2 (metricKey .counter n)
          = (valueOf s (metricKey .counter n)).add w) ∧
    ((statsd_handle_counter allocOk [] "n" "1" (some "@nan")).1 = false ∧
     (statsd_handle_counter allocOk [] "n" "1" (some "@inf")).1 = false ∧
     (statsd_handle_counter allocOk [] "n" "1" (some "@2")).1 = false) ∧
    ((statsd_handle_gauge allocOk [] "g" "nan").1 = true ∧
     gaugeValue (statsd_handle_gauge allocOk [] "g" "nan").2 "g" = GVal.nan) ∧
    (statsd_handle_timer allocOk [] "t" "inf" none).1 = true := by
  refine ⟨⟨by with_unfolding_all decide, by with_unfolding_all decide⟩, ?_,
    ⟨by with_unfolding_all decide, by with_unfolding_all decide,
     by with_unfolding_all decide⟩,
    ⟨by with_unfolding_all decide, by with_unfolding_all decide⟩,
    by with_unfolding_all decide⟩
  intro s n v w hpv
  have hdiv : w.div (GVal.fin 1) = w := by
    cases w <;> norm_num [GVal.div]
  have hred : statsd_handle_counter allocOk s n v none
      = statsd_metric_add allocOk s n w .counter := by
    simp [statsd_handle_counter, extraAtOk, scaleOf, hpv, hdiv]
  rw [hred]
  obtain ⟨h1, h2, _⟩ := metric_add_allocOk_spec s n w .counter
  refine ⟨h1, ?_⟩
  unfold valueOf
  rw [h2]
  simp [getOrBlank_value, valueOf]

/-- Witness for C10's quantified part: the counter value token `"nan"`
is accepted and stored. -/
theorem C10_no_finiteness_check_on_values_witness :
    (statsd_handle_counter allocOk [] "cnt" "nan" none).1 = true ∧
    valueOf (statsd_handle_counter allocOk [] "cnt" "nan" none).2
        (metricKey .counter "cnt")
      = (valueOf ([] : Registry) (metricKey .counter "cnt")).add GVal.nan :=
  C10_no_finiteness_check_on_values.2.1 [] "cnt" "nan" GVal.nan
    (by with_unfolding_all decide)

theorem idleDelete_iff (conf : StatsdConfig) (m : StatsdMetric) :
    idleDelete conf m = true ↔
      (m.updates_num = 0 ∧ deleteFlag conf m.mtype = true) := by
  simp [idleDelete]

theorem flushMetric_updates (conf : StatsdConfig) (k : String) (m : StatsdMetric) :
    (flushMetric conf k m).updates_num = 0 := by
  unfold flushMetric statsd_metric_clear_set_locked
  dsimp only
  split <;> rfl

theorem nodup_key_unique : ∀ {s : Registry}, (s.map Prod.fst).Nodup →
    ∀ {k : String} {a b : StatsdMetric}, (k, a) ∈ s → (k, b) ∈ s → a = b := by
  intro s
  induction s with
  | nil =>
      intro _ k a b ha
      cases ha
  | cons kv rest ih =>
      intro hnd k a b ha hb
      rw [List.map_cons, List.nodup_cons] at hnd
      rcases List.mem_cons.mp ha with ha1 | ha1 <;>
        rcases List.mem_cons.mp hb with hb1 | hb1
      · exact (Prod.ext_iff.mp (ha1.trans hb1.symm)).2
      · exfalso
        apply hnd.1
        rw [← ha1]
        exact List.mem_map.mpr ⟨(k, b), hb1, rfl⟩
      · exfalso
        apply hnd.1
        rw [← hb1]
        exact List.mem_map.mpr ⟨(k, a), ha1, rfl⟩
      · exact ih hnd.2 ha1 hb1

theorem read_go_spec (conf : StatsdConfig) (s : Registry) :
    (statsd_read_go conf s).1
      = (s.filter (fun kv => !idleDelete conf kv.2)).map
          (fun kv => (kv.1, flushMetric conf kv.1 kv.2)) ∧
    (statsd_read_go conf s).2
      = (s.filter (fun kv => !idleDelete conf kv.2)).flatMap
          (fun kv => (statsd_metric_submit_locked conf ⟨kv.1.data.drop 2⟩ kv.2).1) := by
  induction s with
  | nil => exact ⟨rfl, rfl⟩
  | cons kv rest ih =>
      obtain ⟨k, m⟩ := kv
      by_cases hid : idleDelete conf m = true
      · have hcond : m.updates_num = 0 ∧ deleteFlag conf m.mtype = true :=
          (idleDelete_iff conf m).mp hid
        simp only [statsd_read_go, if_pos hcond, List.filter_cons]
        simp [hid, ih]
      · have hcond : ¬ (m.updates_num = 0 ∧ deleteFlag conf m.mtype = true) :=
          fun hc => hid ((idleDelete_iff conf m).mpr hc)
        simp only [statsd_read_go, if_neg hcond, List.filter_cons]
        simp [hid, ih.1, ih.2, flushMetric]

/-- C4: at flush, a registry entry is removed iff its `updates_num` is
`0` and the `Delete*` flag matching its type is set; removed entries
contribute nothing to the dispatched records (which come exactly from
the surviving entries, in order); surviving entries have `updates_num`
reset to `0`. -/
theorem C4_delete_on_idle (conf : StatsdConfig) (s : Registry)
    (hnd : (s.map Prod.fst).Nodup) :
    (statsd_read_node conf s).1
      = (s.filter (fun kv => !idleDelete conf kv.2)).map
          (fun kv => (kv.1, flushMetric conf kv.1 kv.2)) ∧
    (statsd_read_node conf s).2
      = (s.filter (fun kv => !idleDelete conf kv.2)).flatMap
          (fun kv => (statsd_metric_submit_locked conf ⟨kv.1.data.drop 2⟩ kv.2).1) ∧
    (∀ kv ∈ (statsd_read_node conf s).1, kv.2.updates_num = 0) ∧
    (∀ kv ∈ s, (idleDelete conf kv.2 = true ↔
        ∀ m', (kv.1, m') ∉ (statsd_read_node conf s).1)) := by
  obtain ⟨hreg, hout⟩ := read_go_spec conf s
  refine ⟨hreg, hout, ?_, ?_⟩
  · intro kv hkv
    rw [show (statsd_read_node conf s).1 = (statsd_read_go conf s).1 from rfl,
        hreg] at hkv
    obtain ⟨kv0, _, hkv0⟩ := List.mem_map.mp hkv
    rw [← hkv0]
    exact flushMetric_updates conf kv0.1 kv0.2
  · intro kv hkv
    obtain ⟨k, m⟩ := kv
    constructor
    · intro hid m' hm'
      rw [show (statsd_read_node conf s).1 = (statsd_read_go conf s).1 from rfl,
          hreg] at hm'
      obtain ⟨kv0, hkv0mem, hkv0⟩ := List.mem_map.mp hm'
      obtain ⟨hkv0s, hkv0keep⟩ := List.mem_filter.mp hkv0mem
      have hk : kv0.1 = k := (Prod.ext_iff.mp hkv0).1
      have hm : kv0.2 = m := by
        have : ((k, kv0.2) : String × StatsdMetric) ∈ s := by
          rw [← hk]
          exact hkv0s
        exact nodup_key_unique hnd this hkv
      rw [hm, hid] at hkv0keep
      exact Bool.noConfusion hkv0keep
    · intro hnone
      by_contra hid
      have hkeep : (!idleDelete conf m) = true := by
        simp [Bool.not_eq_true] at hid ⊢
        exact hid
      have hmem : ((k, flushMetric conf k m) : String × StatsdMetric)
          ∈ (statsd_read_node conf s).1 := by
        rw [show (statsd_read_node conf s).1 = (statsd_read_go conf s).1 from rfl,
            hreg]
        exact List.mem_map.mpr ⟨(k, m), List.mem_filter.mpr ⟨hkv, hkeep⟩, rfl⟩
      exact hnone (flushMetric conf k m) hmem

/-- Witness for C4: a registry holding an idle counter (deleted, since
`DeleteCounters` is set) and an updated gauge (kept and reset). -/
theorem C4_delete_on_idle_witness :
    ((statsd_read_node { defaultConf with delete_counters := true }
        [("c:x", ⟨MetricType.counter, GVal.fin 3, none, none, 0⟩),
         ("g:y", ⟨MetricType.gauge, GVal.fin 7, none, none, 2⟩)]).1
      = ([("c:x", ⟨MetricType.counter, GVal.fin 3, none, none, 0⟩),
          ("g:y", ⟨MetricType.gauge, GVal.fin 7, none, none, 2⟩)].filter
            (fun kv => !idleDelete { defaultConf with delete_counters := true } kv.2)).map
          (fun kv => (kv.1,
            flushMetric { defaultConf with delete_counters := true } kv.1 kv.2)) ∧
      (statsd_read_node { defaultConf with delete_counters := true }
        [("c:x", ⟨MetricType.counter, GVal.fin 3, none, none, 0⟩),
         ("g:y", ⟨MetricType.gauge, GVal.fin 7, none, none, 2⟩)]).2
      = ([("c:x", ⟨MetricType.counter, GVal.fin 3, none, none, 0⟩),
          ("g:y", ⟨MetricType.gauge, GVal.fin 7, none, none, 2⟩)].filter
            (fun kv => !idleDelete { defaultConf with delete_counters := true } kv.2)).flatMap
          (fun kv => (statsd_metric_submit_locked
              { defaultConf with delete_counters := true }
              ⟨kv.1.data.drop 2⟩ kv.2).1) ∧
      (∀ kv ∈ (statsd_read_node { defaultConf with delete_counters := true }
          [("c:x", ⟨MetricType.counter, GVal.fin 3, none, none, 0⟩),
           ("g:y", ⟨MetricType.gauge, GVal.fin 7, none, none, 2⟩)]).1,
        kv.2.updates_num = 0) ∧
      (∀ kv ∈ [(("c:x" : String), (⟨MetricType.counter, GVal.fin 3, none, none, 0⟩ : StatsdMetric)),
               ("g:y", ⟨MetricType.gauge, GVal.fin 7, none, none, 2⟩)],
        (idleDelete { defaultConf with delete_counters := true } kv.2 = true ↔
          ∀ m', (kv.1, m') ∉ (statsd_read_node { defaultConf with delete_counters := true }
            [("c:x", ⟨MetricType.counter, GVal.fin 3, none, none, 0⟩),
             ("g:y", ⟨MetricType.gauge, GVal.fin 7, none, none, 2⟩)]).1))) :=
  C4_delete_on_idle { defaultConf with delete_counters := true }
    [("c:x", ⟨MetricType.counter, GVal.fin 3, none, none, 0⟩),
     ("g:y", ⟨MetricType.gauge, GVal.fin 7, none, none, 2⟩)]
    (by with_unfolding_all decide)

theorem mem_insertDedup {xs : List String} {x a : String} :
    a ∈ insertDedup xs x ↔ a ∈ xs ∨ a = x := by
  unfold insertDedup
  by_cases h : x ∈ xs
  · simp only [if_pos h]
    exact ⟨fun ha => Or.inl ha, fun ha => ha.elim id (fun e => e ▸ h)⟩
  · simp [if_neg h, List.mem_append]

theorem nodup_insertDedup {xs : List String} (x : String) (h : xs.Nodup) :
    (insertDedup xs x).Nodup := by
  unfold insertDedup
  by_cases hx : x ∈ xs
  · simpa [if_pos hx] using h
  · rw [if_neg hx, ← List.concat_eq_append]
    exact h.concat hx

theorem foldl_insertDedup_nodup (ms : List String) :
    ∀ xs : List String, xs.Nodup → (ms.foldl insertDedup xs).Nodup := by
  induction ms with
  | nil => intro xs h; exact h
  | cons m rest ih =>
      intro xs h
      rw [List.foldl_cons]
      exact ih _ (nodup_insertDedup m h)

theorem mem_foldl_insertDedup (ms : List String) :
    ∀ (xs : List String) (a : String),
      a ∈ ms.foldl insertDedup xs ↔ a ∈ xs ∨ a ∈ ms := by
  induction ms with
  | nil => intro xs a; simp
  | cons m rest ih =>
      intro xs a
      rw [List.foldl_cons, ih]
      simp [mem_insertDedup, List.mem_cons, or_assoc]

theorem length_foldl_insertDedup_nil (ms : List String) :
    (ms.foldl insertDedup []).length = ms.toFinset.card := by
  have hnd : (ms.foldl insertDedup []).Nodup :=
    foldl_insertDedup_nodup ms [] (by simp)
  have hfin : (ms.foldl insertDedup []).toFinset = ms.toFinset := by
    ext a
    simp [List.mem_toFinset, mem_foldl_insertDedup]
  rw [← List.toFinset_card_of_nodup hnd, hfin]

theorem handle_set_allocOk_step (s : Registry) (n mem : String) :
    (statsd_handle_set allocOk s n mem).1 = true ∧
    registryGet (statsd_handle_set allocOk s n mem).2 (metricKey .set n)
      = some { mtype := (getOrBlank s .set n).mtype,
               value := (getOrBlank s .set n).value,
               latency := (getOrBlank s .set n).latency,
               set := some (insertDedup (membersOf s (metricKey .set n)) mem),
               updates_num := updatesOf s (metricKey .set n) + 1 } ∧
    ∀ k', k' ≠ metricKey .set n →
      registryGet (statsd_handle_set allocOk s n mem).2 k' = registryGet s k' := by
  obtain ⟨s', hs', hget, hother⟩ := lookup_allocOk_spec s .set n
  have hmem0 : membersOf s (metricKey .set n) = (getOrBlank s .set n).set.getD [] := by
    unfold membersOf getOrBlank
    cases registryGet s (metricKey .set n) <;> rfl
  have hupd0 : updatesOf s (metricKey .set n) = (getOrBlank s .set n).updates_num :=
    (getOrBlank_updates s .set n).symm
  have hA : allocOk.allocSet = true := rfl
  have hB : allocOk.dupMember = true := rfl
  have hC : allocOk.insertMember = true := rfl
  cases hset : (getOrBlank s .set n).set with
  | none =>
      have hres : statsd_handle_set allocOk s n mem
          = (true, registryApply (registryApply s' (metricKey .set n)
              (fun m0 => { m0 with set := some [] })) (metricKey .set n)
              (fun m0 => { m0 with set := some ([] ++ [mem]), updates_num := m0.updates_num + 1 })) := by
        simp [statsd_handle_set, hs', hget, hset, hA, hB, hC, List.not_mem_nil]
      rw [hres]
      dsimp only
      refine ⟨rfl, ?_, ?_⟩
      · rw [registryGet_registryApply_self, registryGet_registryApply_self, hget]
        simp [hmem0, hset, insertDedup, hupd0]
      · intro k' hk'
        rw [registryGet_registryApply_ne _ _ hk', registryGet_registryApply_ne _ _ hk',
            hother k' hk']
  | some xs =>
      by_cases hm : mem ∈ xs
      · have hres : statsd_handle_set allocOk s n mem
            = (true, registryApply (registryApply s' (metricKey .set n)
                (fun m0 => { m0 with set := some xs })) (metricKey .set n)
                (fun m0 => { m0 with updates_num := m0.updates_num + 1 })) := by
          simp [statsd_handle_set, hs', hget, hset, hA, hB, hC, hm]
        rw [hres]
        dsimp only
        refine ⟨rfl, ?_, ?_⟩
        · rw [registryGet_registryApply_self, registryGet_registryApply_self, hget]
          simp [hmem0, hset, insertDedup, hm, hupd0]
        · intro k' hk'
          rw [registryGet_registryApply_ne _ _ hk', registryGet_registryApply_ne _ _ hk',
              hother k' hk']
      · have hres : statsd_handle_set allocOk s n mem
            = (true, registryApply (registryApply s' (metricKey .set n)
                (fun m0 => { m0 with set := some xs })) (metricKey .set n)
                (fun m0 => { m0 with set := some (xs ++ [mem]), updates_num := m0.updates_num + 1 })) := by
          simp [statsd_handle_set, hs', hget, hset, hA, hB, hC, hm]
        rw [hres]
        dsimp only
        refine ⟨rfl, ?_, ?_⟩
        · rw [registryGet_registryApply_self, registryGet_registryApply_self, hget]
          simp [hmem0, hset, insertDedup, hm, hupd0]
        · intro k' hk'
          rw [registryGet_registryApply_ne _ _ hk', registryGet_registryApply_ne _ _ hk',
              hother k' hk']

theorem applySetUpdates_spec (n : String) :
    ∀ (ms : List String) (s : Registry) (mem : String),
      ∃ m', registryGet (applySetUpdates s n (mem :: ms)) (metricKey .set n) = some m' ∧
        m'.mtype = (getOrBlank s .set n).mtype ∧
        m'.set = some ((mem :: ms).foldl insertDedup (membersOf s (metricKey .set n))) ∧
        m'.updates_num = updatesOf s (metricKey .set n) + (mem :: ms).length := by
  intro ms
  induction ms with
  | nil =>
      intro s mem
      obtain ⟨h1, h2, _⟩ := handle_set_allocOk_step s n mem
      exact ⟨_, h2, rfl, rfl, rfl⟩
  | cons m2 rest ih =>
      intro s mem
      obtain ⟨h1, h2, _⟩ := handle_set_allocOk_step s n mem
      obtain ⟨m', hget', hmt', hset', hupd'⟩ := ih (statsd_handle_set allocOk s n mem).2 m2
      have hgOB : (getOrBlank (statsd_handle_set allocOk s n mem).2 .set n).mtype
          = (getOrBlank s .set n).mtype := by
        unfold getOrBlank
        rw [h2]
        rfl
      have hmembers : membersOf (statsd_handle_set allocOk s n mem).2 (metricKey .set n)
          = insertDedup (membersOf s (metricKey .set n)) mem := by
        unfold membersOf
        rw [h2]
        rfl
      have hupds : updatesOf (statsd_handle_set allocOk s n mem).2 (metricKey .set n)
          = updatesOf s (metricKey .set n) + 1 := by
        unfold updatesOf
        rw [h2]
        rfl
      refine ⟨m', hget', ?_, ?_, ?_⟩
      · rw [hmt', hgOB]
      · rw [hset', hmembers]
        rfl
      · rw [hupd', hupds]
        simp [List.length_cons]
        omega

theorem submit_set_record (conf : StatsdConfig) (nm : String) (m : StatsdMetric)
    (hmt : m.mtype = MetricType.set) (xs : List String) (hset : m.set = some xs) :
    (statsd_metric_submit_locked conf nm m).1
      = [⟨conf.node_name, "objects",
          nameTrunc (conf.globalPre ++ conf.setPre ++ nm ++ conf.globalPost),
          .gauge (.fin xs.length)⟩] := by
  obtain ⟨mt, mv, ml, ms0, mu⟩ := m
  have hmt0 : mt = MetricType.set := hmt
  subst hmt0
  have hset0 : ms0 = some xs := hset
  subst hset0
  simp [statsd_metric_submit_locked]

/-- C3: within one flush interval, the reported cardinality of a set
equals the number of distinct (byte-equal) member strings submitted in
the interval, and inserting a member that is already present leaves the
membership unchanged while still incrementing `updates_num`. -/
theorem C3_set_cardinality_and_dedup :
    (∀ (s : Registry) (n mem : String) (m : StatsdMetric) (xs : List String),
        registryGet s (metricKey .set n) = some m → m.set = some xs → mem ∈ xs →
        (statsd_handle_set allocOk s n mem).1 = true ∧
        membersOf (statsd_handle_set allocOk s n mem).2 (metricKey .set n) = xs ∧
        updatesOf (statsd_handle_set allocOk s n mem).2 (metricKey .set n)
          = m.updates_num + 1) ∧
    (∀ (conf : StatsdConfig) (s : Registry) (n nm mem : String) (rest : List String),
        (∀ m, registryGet s (metricKey .set n) = some m →
            m.mtype = MetricType.set ∧ (m.set = none ∨ m.set = some [])) →
        ∃ m', registryGet (applySetUpdates s n (mem :: rest)) (metricKey .set n)
            = some m' ∧
          m'.mtype = MetricType.set ∧
          (statsd_metric_submit_locked conf nm m').1
            = [⟨conf.node_name, "objects",
                nameTrunc (conf.globalPre ++ conf.setPre ++ nm ++ conf.globalPost),
                .gauge (.fin ((mem :: rest).toFinset.card))⟩]) := by
  constructor
  · intro s n mem m xs hget hmset hmem
    obtain ⟨h1, h2, _⟩ := handle_set_allocOk_step s n mem
    have hxs0 : membersOf s (metricKey .set n) = xs := by
      unfold membersOf
      rw [hget]
      show m.set.getD [] = xs
      rw [hmset]
      rfl
    have hupd : updatesOf s (metricKey .set n) = m.updates_num := by
      unfold updatesOf
      rw [hget]
    refine ⟨h1, ?_, ?_⟩
    · unfold membersOf
      rw [h2]
      simp [hxs0, insertDedup, hmem]
    · unfold updatesOf
      rw [h2]
      simp [hupd]
  · intro conf s n nm mem rest hstart
    obtain ⟨m', hget', hmt', hset', hupd'⟩ := applySetUpdates_spec n rest s mem
    have hmt0 : (getOrBlank s .set n).mtype = MetricType.set := by
      unfold getOrBlank
      cases hg : registryGet s (metricKey .set n) with
      | none => rfl
      | some m => exact (hstart m hg).1
    have hxs0 : membersOf s (metricKey .set n) = [] := by
      unfold membersOf
      cases hg : registryGet s (metricKey .set n) with
      | none => rfl
      | some m =>
          show m.set.getD [] = []
          rcases (hstart m hg).2 with h | h <;> simp [h]
    have hmt1 : m'.mtype = MetricType.set := hmt'.trans hmt0
    have hset1 : m'.set
        = some ((mem :: rest).foldl insertDedup []) := by
      rw [hset', hxs0]
    refine ⟨m', hget', hmt1, ?_⟩
    rw [submit_set_record conf nm m' hmt1 _ hset1,
        length_foldl_insertDedup_nil (mem :: rest)]

/-- Witness for C3: a duplicate insertion into `{a, b}` and the member
sequence `["a", "b", "a"]` applied from the empty registry (reported
cardinality 2). -/
theorem C3_set_cardinality_and_dedup_witness :
    ((statsd_handle_set allocOk
        [("s:login", ⟨MetricType.set, GVal.fin 0, none, some ["a", "b"], 2⟩)]
        "login" "a").1 = true ∧
      membersOf (statsd_handle_set allocOk
        [("s:login", ⟨MetricType.set, GVal.fin 0, none, some ["a", "b"], 2⟩)]
        "login" "a").2 (metricKey .set "login") = ["a", "b"] ∧
      updatesOf (statsd_handle_set allocOk
        [("s:login", ⟨MetricType.set, GVal.fin 0, none, some ["a", "b"], 2⟩)]
        "login" "a").2 (metricKey .set "login") = 2 + 1) ∧
    (∃ m', registryGet (applySetUpdates [] "login" ("a" :: ["b", "a"]))
        (metricKey .set "login") = some m' ∧
      m'.mtype = MetricType.set ∧
      (statsd_metric_submit_locked defaultConf "login" m').1
        = [⟨defaultConf.node_name, "objects",
            nameTrunc (defaultConf.globalPre ++ defaultConf.setPre ++ "login"
              ++ defaultConf.globalPost),
            .gauge (.fin ((("a" :: ["b", "a"]) : List String).toFinset.card))⟩]) :=
  ⟨C3_set_cardinality_and_dedup.1
      [("s:login", ⟨MetricType.set, GVal.fin 0, none, some ["a", "b"], 2⟩)]
      "login" "a" ⟨MetricType.set, GVal.fin 0, none, some ["a", "b"], 2⟩ ["a", "b"]
      (by with_unfolding_all decide) (by with_unfolding_all decide)
      (by with_unfolding_all decide),
   C3_set_cardinality_and_dedup.2 defaultConf [] "login" "login" "a" ["b", "a"]
      (by intro m hm; cases hm)⟩

theorem obsEq_refl (s : Registry) : ObsEq s s :=
  fun _ => ⟨rfl, rfl, rfl, rfl⟩

theorem lookup_some_spec {plan : AllocPlan} {s : Registry} {t : MetricType}
    {n : String} {s' : Registry}
    (h : statsd_metric_lookup_locked plan s t n = some s') :
    registryGet s' (metricKey t n) = some (getOrBlank s t n) ∧
    ∀ k', k' ≠ metricKey t n → registryGet s' k' = registryGet s k' := by
  simp only [statsd_metric_lookup_locked] at h
  cases hget : registryGet s (metricKey t n) with
  | some m =>
      rw [hget] at h
      injection h with h'
      subst h'
      exact ⟨by simp [getOrBlank, hget], fun k' _ => rfl⟩
  | none =>
      rw [hget] at h
      by_cases h1 : plan.dupKey = false
      · rw [if_pos h1] at h; cases h
      · rw [if_neg h1] at h
        by_cases h2 : plan.mallocMetric = false
        · rw [if_pos h2] at h; cases h
        · rw [if_neg h2] at h
          by_cases h3 : plan.insertKey = false
          · rw [if_pos h3] at h; cases h
          · rw [if_neg h3] at h
            injection h with h'
            subst h'
            refine ⟨?_, fun k' hk' => registryGet_registryInsert_ne s _ hk'⟩
            rw [registryGet_registryInsert_self s _ _ hget]
            simp [getOrBlank, hget]

theorem getOrBlank_members (s : Registry) (t : MetricType) (n : String) :
    membersOf s (metricKey t n) = (getOrBlank s t n).set.getD [] := by
  unfold membersOf getOrBlank
  cases registryGet s (metricKey t n) <;> rfl

theorem getOrBlank_samples (s : Registry) (t : MetricType) (n : String) :
    samplesOf s (metricKey t n)
      = (match (getOrBlank s t n).latency with
         | none => []
         | some lc => lc.samples) := by
  unfold samplesOf getOrBlank
  cases registryGet s (metricKey t n) <;> rfl

theorem obsEq_of_entry {s s' : Registry} (t : MetricType) (n : String)
    (m' : StatsdMetric)
    (hk : registryGet s' (metricKey t n) = some m')
    (hu : m'.updates_num = (getOrBlank s t n).updates_num)
    (hv : m'.value = (getOrBlank s t n).value)
    (hl : m'.latency = (getOrBlank s t n).latency)
    (hs : m'.set.getD [] = (getOrBlank s t n).set.getD [])
    (ho : ∀ k', k' ≠ metricKey t n → registryGet s' k' = registryGet s k') :
    ObsEq s s' := by
  intro k
  by_cases hkk : k = metricKey t n
  · subst hkk
    have e1 : updatesOf s' (metricKey t n) = m'.updates_num := by
      unfold updatesOf
      rw [hk]
    have e2 : valueOf s' (metricKey t n) = m'.value := by
      unfold valueOf
      rw [hk]
    have e3 : membersOf s' (metricKey t n) = m'.set.getD [] := by
      unfold membersOf
      rw [hk]
    have e4 : samplesOf s' (metricKey t n)
        = (match m'.latency with
           | none => []
           | some lc => lc.samples) := by
      unfold samplesOf
      rw [hk]
    refine ⟨?_, ?_, ?_, ?_⟩
    · rw [e1, hu, getOrBlank_updates]
    · rw [e2, hv, getOrBlank_value]
    · rw [e3, hs, ← getOrBlank_members]
    · rw [e4, hl, ← getOrBlank_samples]
  · have he := ho k hkk
    unfold updatesOf valueOf membersOf samplesOf
    rw [he]
    exact ⟨rfl, rfl, rfl, rfl⟩

theorem obsEq_of_ensured {s s' : Registry} (t : MetricType) (n : String)
    (hk : registryGet s' (metricKey t n) = some (getOrBlank s t n))
    (ho : ∀ k', k' ≠ metricKey t n → registryGet s' k' = registryGet s k') :
    ObsEq s s' :=
  obsEq_of_entry t n _ hk rfl rfl rfl rfl ho

/-- C8 counterexample: when `latency_counter_create` fails inside
`statsd_handle_timer`, the update returns failure but the freshly
inserted registry entry for `(timer, "t")` *remains* in the tree — the
registry is not left unchanged, no new entry notwithstanding. -/
theorem C8_alloc_failure_leaves_entry :
    (statsd_handle_timer { allocOk with allocLatency := false } [] "t" "1" none).1
      = false ∧
    (statsd_handle_timer { allocOk with allocLatency := false } [] "t" "1" none).2
      = [(metricKey .timer "t", blankMetric .timer)] := by
  with_unfolding_all decide

/-- C8 (amended): a failed update returns failure and never increments
`updates_num`, changes a value, records a sample, or adds a member —
for counter/gauge updates the registry is left exactly unchanged, while
failed timer/set updates may leave behind a fresh zero-update entry
(and an allocated empty member set), which is invisible to every
observable. -/
theorem C8_failed_update_no_observable_change :
    (∀ (plan : AllocPlan) (s : Registry) (n : String) (v : GVal) (t : MetricType),
        (statsd_metric_set plan s n v t).1 = false →
        (statsd_metric_set plan s n v t).2 = s) ∧
    (∀ (plan : AllocPlan) (s : Registry) (n : String) (v : GVal) (t : MetricType),
        (statsd_metric_add plan s n v t).1 = false →
        (statsd_metric_add plan s n v t).2 = s) ∧
    (∀ (plan : AllocPlan) (s : Registry) (n vs : String) (ex : Option String),
        (statsd_handle_timer plan s n vs ex).1 = false →
        ObsEq s (statsd_handle_timer plan s n vs ex).2) ∧
    (∀ (plan : AllocPlan) (s : Registry) (n mem : String),
        (statsd_handle_set plan s n mem).1 = false →
        ObsEq s (statsd_handle_set plan s n mem).2) := by
  refine ⟨?_, ?_, ?_, ?_⟩
  · intro plan s n v t hf
    cases hl : statsd_metric_lookup_locked plan s t n with
    | none => simp [statsd_metric_set, hl]
    | some s' => simp [statsd_metric_set, hl] at hf
  · intro plan s n v t hf
    cases hl : statsd_metric_lookup_locked plan s t n with
    | none => simp [statsd_metric_add, hl]
    | some s' => simp [statsd_metric_add, hl] at hf
  · intro plan s n vs ex hf
    by_cases hat : extraAtOk ex = false
    · simp [statsd_handle_timer, hat]
      exact obsEq_refl s
    · cases hsc : scaleOf ex with
      | none =>
          simp [statsd_handle_timer, hat, hsc]
          exact obsEq_refl s
      | some sc =>
          cases hpv : statsd_parse_value vs with
          | none =>
              simp [statsd_handle_timer, hat, hsc, hpv]
              exact obsEq_refl s
          | some w =>
              cases hl : statsd_metric_lookup_locked plan s .timer n with
              | none =>
                  simp [statsd_handle_timer, hat, hsc, hpv, hl]
                  exact obsEq_refl s
              | some s' =>
                  obtain ⟨hk, ho⟩ := lookup_some_spec hl
                  cases hlat : (getOrBlank s .timer n).latency with
                  | some lc =>
                      simp [statsd_handle_timer, hat, hsc, hpv, hl, hk, hlat] at hf
                  | none =>
                      cases hal : plan.allocLatency with
                      | true =>
                          simp [statsd_handle_timer, hat, hsc, hpv, hl, hk, hlat,
                                hal] at hf
                      | false =>
                          simp [statsd_handle_timer, hat, hsc, hpv, hl, hk, hlat, hal]
                          exact obsEq_of_ensured .timer n hk ho
  · intro plan s n mem hf
    cases hl : statsd_metric_lookup_locked plan s .set n with
    | none =>
        simp [statsd_handle_set, hl]
        exact obsEq_refl s
    | some s' =>
        obtain ⟨hk, ho⟩ := lookup_some_spec hl
        have happ : ∀ xs : List String,
            registryGet (registryApply s' (metricKey .set n)
              (fun m0 => { m0 with set := some xs })) (metricKey .set n)
            = some { getOrBlank s .set n with set := some xs } := by
          intro xs
          rw [registryGet_registryApply_self, hk]
          rfl
        have happo : ∀ (xs : List String) k', k' ≠ metricKey .set n →
            registryGet (registryApply s' (metricKey .set n)
              (fun m0 => { m0 with set := some xs })) k'
            = registryGet s k' := by
          intro xs k' hk'
          rw [registryGet_registryApply_ne _ _ hk', ho k' hk']
        cases hset : (getOrBlank s .set n).set with
        | none =>
            cases hAS : plan.allocSet with
            | false =>
                simp [statsd_handle_set, hl, hk, hset, hAS] at hf ⊢
                exact obsEq_of_ensured .set n hk ho
            | true =>
                cases hDM : plan.dupMember with
                | false =>
                    simp [statsd_handle_set, hl, hk, hset, hAS, hDM]
                    exact obsEq_of_entry .set n _ (happ []) rfl rfl rfl
                      (by simp [hset]) (happo [])
                | true =>
                    cases hIM : plan.insertMember with
                    | true =>
                        simp [statsd_handle_set, hl, hk, hset, hAS, hDM, hIM] at hf
                    | false =>
                        simp [statsd_handle_set, hl, hk, hset, hAS, hDM, hIM]
                        exact obsEq_of_entry .set n _ (happ []) rfl rfl rfl
                          (by simp [hset]) (happo [])
        | some xs =>
            cases hDM : plan.dupMember with
            | false =>
                simp [statsd_handle_set, hl, hk, hset, hDM]
                exact obsEq_of_entry .set n _ (happ xs) rfl rfl rfl
                  (by simp [hset]) (happo xs)
            | true =>
                by_cases hm : mem ∈ xs
                · simp [statsd_handle_set, hl, hk, hset, hDM, hm] at hf
                · cases hIM : plan.insertMember with
                  | true =>
                      simp [statsd_handle_set, hl, hk, hset, hDM, hm, hIM] at hf
                  | false =>
                      simp [statsd_handle_set, hl, hk, hset, hDM, hm, hIM]
                      exact obsEq_of_entry .set n _ (happ xs) rfl rfl rfl
                        (by simp [hset]) (happo xs)

/-- Witness for C8's amended theorem: a counter add whose key `strdup`
fails leaves the registry equal, and the timer of the counterexample is
observably unchanged. -/
theorem C8_failed_update_no_observable_change_witness :
    (statsd_metric_add { allocOk with dupKey := false } [] "c" (GVal.fin 1)
        .counter).2 = ([] : Registry) ∧
    ObsEq []
      (statsd_handle_timer { allocOk with allocLatency := false } [] "t" "1" none).2 :=
  ⟨C8_failed_update_no_observable_change.2.1 { allocOk with dupKey := false }
      [] "c" (GVal.fin 1) .counter (by with_unfolding_all decide),
   C8_failed_update_no_observable_change.2.2.1 { allocOk with allocLatency := false }
      [] "t" "1" none (by with_unfolding_all decide)⟩

theorem nameTrunc_eq {s : String} (h : s.data.length ≤ DATA_MAX_NAME_LEN - 1) :
    nameTrunc s = s :=
  str_ext (List.take_of_length_le h)

theorem latency_counter_get_num_reset (l : Option LatencyCounter) :
    latency_counter_get_num (latency_counter_reset l) = 0 := by
  cases l <;> rfl

/-- C6: a timer flush emits, in order: average (suffix `-average`
unless `LeaveMetricsNameASIS`, which uses the bare composite name for
that series only), then `-lower` / `-upper` / `-sum` when enabled, then
`-percentile-<p>` for each configured percentile in configuration
order, then `-count` when `TimerCount` — the `-count` series with value
type `gauge`, all preceding series with value type `latency`; after
emission the histogram is reset.  (Name-buffer truncation is ruled out
by the length hypotheses.) -/
theorem C6_timer_emission_order (conf : StatsdConfig) (nm : String)
    (m : StatsdMetric) (full : String)
    (hfull : full = conf.globalPre ++ conf.timerPre ++ nm ++ conf.globalPost)
    (ht : m.mtype = MetricType.timer)
    (hlen : full.data.length + 15 ≤ DATA_MAX_NAME_LEN - 1)
    (hp : ∀ p ∈ conf.timer_percentile, (fmt0f p).data.length ≤ 3) :
    ((statsd_metric_submit_locked conf nm m).1.map
        (fun rec => (rec.vtype, rec.type_instance)))
      = [("latency",
          if conf.leave_metrics_name_asis = true then full else full ++ "-average")]
        ++ (if conf.timer_lower = true then [("latency", full ++ "-lower")] else [])
        ++ (if conf.timer_upper = true then [("latency", full ++ "-upper")] else [])
        ++ (if conf.timer_sum = true then [("latency", full ++ "-sum")] else [])
        ++ conf.timer_percentile.map
            (fun p => ("latency", full ++ "-percentile-" ++ fmt0f p))
        ++ (if conf.timer_count = true then [("gauge", full ++ "-count")] else []) ∧
    (statsd_metric_submit_locked conf nm m).2.latency
      = latency_counter_reset m.latency ∧
    latency_counter_get_num (statsd_metric_submit_locked conf nm m).2.latency = 0 := by
  have hsub : ∀ suf : String, suf.data.length ≤ 15 →
      nameTrunc (full ++ suf) = full ++ suf := by
    intro suf hs
    apply nameTrunc_eq
    rw [str_data_append, List.length_append]
    omega
  have t1 : nameTrunc full = full := by
    apply nameTrunc_eq
    omega
  have t2 : nameTrunc (full ++ "-average") = full ++ "-average" :=
    hsub "-average" (by decide)
  have t3 : nameTrunc (full ++ "-lower") = full ++ "-lower" :=
    hsub "-lower" (by decide)
  have t4 : nameTrunc (full ++ "-upper") = full ++ "-upper" :=
    hsub "-upper" (by decide)
  have t5 : nameTrunc (full ++ "-sum") = full ++ "-sum" :=
    hsub "-sum" (by decide)
  have t6 : nameTrunc (full ++ "-count") = full ++ "-count" :=
    hsub "-count" (by decide)
  have t7 : ∀ p ∈ conf.timer_percentile,
      nameTrunc (full ++ "-percentile-" ++ fmt0f p)
        = full ++ "-percentile-" ++ fmt0f p := by
    intro p hpmem
    have h3 := hp p hpmem
    apply nameTrunc_eq
    rw [str_data_append, str_data_append, List.length_append, List.length_append]
    have h12 : ("-percentile-" : String).data.length = 12 := by decide
    omega
  obtain ⟨mt, mv, ml, ms0, mu⟩ := m
  have ht0 : mt = MetricType.timer := ht
  subst ht0
  refine ⟨?_, ?_, ?_⟩
  · simp only [statsd_metric_submit_locked, ← hfull]
    rw [t1]
    simp only [List.map_append, List.map_map]
    congr 1
    · congr 1
      · congr 1
        · congr 1
          · congr 1
            · rw [t2]
              cases hLN : conf.leave_metrics_name_asis <;> simp
            · cases hTL : conf.timer_lower <;> simp [t3]
          · cases hTU : conf.timer_upper <;> simp [t4]
        · cases hTS : conf.timer_sum <;> simp [t5]
      · exact List.map_congr_left (fun p hpmem => by simp [Function.comp, t7 p hpmem])
    · cases hTC : conf.timer_count <;> simp [t6]
  · simp only [statsd_metric_submit_locked]
  · simp only [statsd_metric_submit_locked]
    exact latency_counter_get_num_reset ml

/-- Witness for C6: a timer with three samples, all optional series and
two percentiles enabled, `LeaveMetricsNameASIS` off. -/
theorem C6_timer_emission_order_witness :
    ((statsd_metric_submit_locked confC6 "rt" mTimer3).1.map
        (fun rec => (rec.vtype, rec.type_instance)))
      = [("latency",
          if confC6.leave_metrics_name_asis = true then "rt" else "rt" ++ "-average")]
        ++ (if confC6.timer_lower = true then [("latency", "rt" ++ "-lower")] else [])
        ++ (if confC6.timer_upper = true then [("latency", "rt" ++ "-upper")] else [])
        ++ (if confC6.timer_sum = true then [("latency", "rt" ++ "-sum")] else [])
        ++ confC6.timer_percentile.map
            (fun p => ("latency", "rt" ++ "-percentile-" ++ fmt0f p))
        ++ (if confC6.timer_count = true then [("gauge", "rt" ++ "-count")] else []) ∧
    (statsd_metric_submit_locked confC6 "rt" mTimer3).2.latency
      = latency_counter_reset mTimer3.latency ∧
    latency_counter_get_num (statsd_metric_submit_locked confC6 "rt" mTimer3).2.latency
      = 0 :=
  C6_timer_emission_order confC6 "rt" mTimer3 "rt"
    (by with_unfolding_all decide) (by with_unfolding_all decide)
    (by with_unfolding_all decide)
    (by intro p hpmem
        have hps : p = (50 : ℚ) ∨ p = 90 := by
          simpa [confC6, defaultConf] using hpmem
        rcases hps with h | h <;> subst h <;> with_unfolding_all decide)

/-! Preservation of the structural invariant, and reachability. -/

theorem typeChar_inj : ∀ {t t' : MetricType}, typeChar t = typeChar t' → t = t' := by
  intro t t' h
  cases t <;> cases t' <;> first | rfl | exact absurd h (by decide)

theorem metricKey_take2 (t : MetricType) (n : String) :
    (metricKey t n).data.take 2 = [typeChar t, ':'] := rfl

theorem entryInv_blank (t : MetricType) (n : String) :
    EntryInv (metricKey t n) (blankMetric t) :=
  ⟨rfl, fun _ => rfl, fun _ => rfl⟩

theorem entryInv_mtype {k : String} {m : StatsdMetric} (e : EntryInv k m)
    {t : MetricType} {n : String} (hk : k = metricKey t n) : m.mtype = t := by
  apply typeChar_inj
  have h1 := e.1
  rw [hk, metricKey_take2] at h1
  exact (List.cons.injEq _ _ _ _ ▸ h1.symm).1

theorem inv_insert {s : Registry} {k : String} {v : StatsdMetric}
    (hinv : RegistryInv s) (hv : EntryInv k v) :
    RegistryInv (registryInsert s k v) := by
  intro kv hkv
  rcases mem_registryInsert hkv with h | h
  · rw [h]; exact hv
  · exact hinv kv h

theorem inv_apply : ∀ {s : Registry} {k : String} {f : StatsdMetric → StatsdMetric},
    RegistryInv s → (∀ m, EntryInv k m → EntryInv k (f m)) →
    RegistryInv (registryApply s k f) := by
  intro s
  induction s with
  | nil => intro k f _ _ kv hkv; cases hkv
  | cons kv0 rest ih =>
      intro k f hinv hf kv hkv
      obtain ⟨k0, m0⟩ := kv0
      have hinv0 : EntryInv k0 m0 := hinv _ (List.mem_cons_self _ _)
      have hinvrest : RegistryInv rest := fun kv' h' => hinv _ (List.mem_cons_of_mem _ h')
      by_cases h0 : k0 = k
      · subst h0
        rw [show registryApply ((k0, m0) :: rest) k0 f
            = (k0, f m0) :: registryApply rest k0 f by simp [registryApply]] at hkv
        rcases List.mem_cons.mp hkv with h | h
        · rw [h]; exact hf m0 hinv0
        · exact ih hinvrest hf _ h
      · rw [show registryApply ((k0, m0) :: rest) k f
            = (k0, m0) :: registryApply rest k f by simp [registryApply, h0]] at hkv
        rcases List.mem_cons.mp hkv with h | h
        · rw [h]; exact hinv0
        · exact ih hinvrest hf _ h

theorem inv_lookup {plan : AllocPlan} {s : Registry} {t : MetricType} {n : String}
    {s' : Registry} (hinv : RegistryInv s)
    (h : statsd_metric_lookup_locked plan s t n = some s') : RegistryInv s' := by
  simp only [statsd_metric_lookup_locked] at h
  cases hget : registryGet s (metricKey t n) with
  | some m =>
      rw [hget] at h
      injection h with h'
      subst h'
      exact hinv
  | none =>
      rw [hget] at h
      by_cases h1 : plan.dupKey = false
      · rw [if_pos h1] at h; cases h
      · rw [if_neg h1] at h
        by_cases h2 : plan.mallocMetric = false
        · rw [if_pos h2] at h; cases h
        · rw [if_neg h2] at h
          by_cases h3 : plan.insertKey = false
          · rw [if_pos h3] at h; cases h
          · rw [if_neg h3] at h
            injection h with h'
            subst h'
            exact inv_insert hinv (entryInv_blank t n)

theorem entryInv_bump {k : String} {m : StatsdMetric} (e : EntryInv k m)
    (v : GVal) :
    EntryInv k { m with value := v, updates_num := m.updates_num + 1 } :=
  ⟨e.1, fun hmt => e.2.1 hmt, fun h => absurd h (Nat.succ_ne_zero _)⟩

theorem inv_metric_set (plan : AllocPlan) (s : Registry) (n : String) (v : GVal)
    (t : MetricType) (hinv : RegistryInv s) :
    RegistryInv (statsd_metric_set plan s n v t).2 := by
  cases hl : statsd_metric_lookup_locked plan s t n with
  | none => simp [statsd_metric_set, hl]; exact hinv
  | some s' =>
      simp only [statsd_metric_set, hl]
      exact inv_apply (inv_lookup hinv hl)
        (fun m e => ⟨e.1, fun hmt => e.2.1 hmt, fun h => absurd h (Nat.succ_ne_zero _)⟩)

theorem inv_metric_add (plan : AllocPlan) (s : Registry) (n : String) (v : GVal)
    (t : MetricType) (hinv : RegistryInv s) :
    RegistryInv (statsd_metric_add plan s n v t).2 := by
  cases hl : statsd_metric_lookup_locked plan s t n with
  | none => simp [statsd_metric_add, hl]; exact hinv
  | some s' =>
      simp only [statsd_metric_add, hl]
      exact inv_apply (inv_lookup hinv hl)
        (fun m e => ⟨e.1, fun hmt => e.2.1 hmt, fun h => absurd h (Nat.succ_ne_zero _)⟩)

theorem inv_handle_counter (plan : AllocPlan) (s : Registry) (n v : String)
    (ex : Option String) (hinv : RegistryInv s) :
    RegistryInv (statsd_handle_counter plan s n v ex).2 := by
  unfold statsd_handle_counter
  split
  · exact hinv
  · split
    · exact hinv
    · split
      · exact hinv
      · exact inv_metric_add plan s n _ .counter hinv

theorem inv_handle_gauge (plan : AllocPlan) (s : Registry) (n v : String)
    (hinv : RegistryInv s) :
    RegistryInv (statsd_handle_gauge plan s n v).2 := by
  unfold statsd_handle_gauge
  split
  · exact hinv
  · split
    · exact inv_metric_add plan s n _ .gauge hinv
    · exact inv_metric_add plan s n _ .gauge hinv
    · exact inv_metric_set plan s n _ .gauge hinv

theorem inv_handle_timer (plan : AllocPlan) (s : Registry) (n v : String)
    (ex : Option String) (hinv : RegistryInv s) :
    RegistryInv (statsd_handle_timer plan s n v ex).2 := by
  unfold statsd_handle_timer
  split
  · exact hinv
  · split
    · exact hinv
    · split
      · exact hinv
      · dsimp only
        split
        · exact hinv
        · rename_i s' hl
          have hinv' : RegistryInv s' := inv_lookup hinv hl
          have hf : ∀ lc (m : StatsdMetric), EntryInv (metricKey .timer n) m →
              EntryInv (metricKey .timer n)
                { m with latency := some lc, updates_num := m.updates_num + 1 } := by
            intro lc m e
            refine ⟨e.1, ?_, fun h => absurd h (Nat.succ_ne_zero _)⟩
            intro hmt
            exact absurd (entryInv_mtype e rfl) hmt
          split
          · exact hinv'
          · split
            · exact inv_apply hinv' (hf _)
            · split
              · exact hinv'
              · exact inv_apply hinv' (hf _)

theorem inv_handle_set (plan : AllocPlan) (s : Registry) (n mem : String)
    (hinv : RegistryInv s) :
    RegistryInv (statsd_handle_set plan s n mem).2 := by
  unfold statsd_handle_set
  split
  · exact hinv
  · rename_i s' hl
    have hinv' : RegistryInv s' := inv_lookup hinv hl
    have hf1 : ∀ xs (m : StatsdMetric), EntryInv (metricKey .set n) m →
        EntryInv (metricKey .set n) { m with set := some xs } := by
      intro xs m e
      exact ⟨e.1, fun hmt => e.2.1 hmt, fun h => e.2.2 h⟩
    have hinv2 : ∀ xs, RegistryInv (registryApply s' (metricKey .set n)
        (fun m0 => { m0 with set := some xs })) := by
      intro xs
      exact inv_apply hinv' (hf1 xs)
    have hbump : ∀ xs, ∀ f : StatsdMetric → StatsdMetric,
        (∀ m, EntryInv (metricKey .set n) m → EntryInv (metricKey .set n) (f m)) →
        RegistryInv (registryApply (registryApply s' (metricKey .set n)
          (fun m0 => { m0 with set := some xs })) (metricKey .set n) f) := by
      intro xs f hff
      exact inv_apply (hinv2 xs) hff
    dsimp only
    split
    · exact hinv'
    · split
      · exact hinv'
      · split
        · exact hinv2 _
        · split
          · exact hbump _ _
              (fun m e => ⟨e.1, fun hmt => e.2.1 hmt,
                fun h => absurd h (Nat.succ_ne_zero _)⟩)
          · split
            · exact hinv2 _
            · exact hbump _ _
                (fun m e => ⟨e.1, fun hmt => e.2.1 hmt,
                  fun h => absurd h (Nat.succ_ne_zero _)⟩)

theorem inv_parse_line (plan : AllocPlan) (s : Registry) (line : String)
    (hinv : RegistryInv s) :
    RegistryInv (statsd_parse_line plan s line).2 := by
  unfold statsd_parse_line
  split
  · exact hinv
  · split
    · exact hinv
    · dsimp only
      split
      · exact inv_handle_counter plan s _ _ _ hinv
      · split
        · exact inv_handle_timer plan s _ _ _ hinv
        · split
          · exact hinv
          · split
            · exact inv_handle_gauge plan s _ _ hinv
            · split
              · exact inv_handle_set plan s _ _ hinv
              · exact hinv

theorem inv_parse_buffer (plan : AllocPlan) (buf : String) :
    ∀ s : Registry, RegistryInv s → RegistryInv (statsd_parse_buffer plan s buf) := by
  unfold statsd_parse_buffer
  generalize splitOnNl buf.data = lines
  induction lines with
  | nil => intro s h; exact h
  | cons l rest ih =>
      intro s h
      rw [List.foldl_cons]
      apply ih
      by_cases hl : l = []
      · simpa [hl] using h
      · simpa [hl] using inv_parse_line plan s ⟨l⟩ h

theorem submit_snd (conf : StatsdConfig) (nm : String) (m : StatsdMetric) :
    (statsd_metric_submit_locked conf nm m).2
      = if m.mtype = MetricType.timer
        then { m with latency := latency_counter_reset m.latency }
        else m := by
  obtain ⟨mt, mv, ml, ms0, mu⟩ := m
  cases mt <;> simp [statsd_metric_submit_locked]

theorem flushMetric_mtype (conf : StatsdConfig) (k : String) (m : StatsdMetric) :
    (flushMetric conf k m).mtype = m.mtype := by
  unfold flushMetric statsd_metric_clear_set_locked
  rw [submit_snd]
  by_cases ht : m.mtype = MetricType.timer <;> simp [ht] <;> split <;> rfl

theorem flushMetric_latency (conf : StatsdConfig) (k : String) (m : StatsdMetric) :
    (flushMetric conf k m).latency
      = if m.mtype = MetricType.timer
        then latency_counter_reset m.latency
        else m.latency := by
  unfold flushMetric statsd_metric_clear_set_locked
  rw [submit_snd]
  by_cases ht : m.mtype = MetricType.timer <;> simp [ht] <;> split <;> rfl

theorem inv_flush (conf : StatsdConfig) :
    ∀ s : Registry, RegistryInv s → RegistryInv (statsd_read_go conf s).1 := by
  intro s
  induction s with
  | nil => intro _ kv hkv; cases hkv
  | cons kv0 rest ih =>
      intro hinv
      obtain ⟨k, m⟩ := kv0
      have hinv0 : EntryInv k m := hinv _ (List.mem_cons_self _ _)
      have hinvrest : RegistryInv rest := fun kv' h' => hinv _ (List.mem_cons_of_mem _ h')
      unfold statsd_read_go
      split
      · exact ih hinvrest
      · intro kv hkv
        rcases List.mem_cons.mp hkv with h | h
        · rw [h]
          refine ⟨?_, ?_, ?_⟩
          · rw [flushMetric_mtype]
            exact hinv0.1
          · intro hmt
            rw [flushMetric_mtype] at hmt
            rw [flushMetric_latency, if_neg hmt]
            exact hinv0.2.1 hmt
          · intro _
            rw [flushMetric_latency]
            by_cases ht : m.mtype = MetricType.timer
            · rw [if_pos ht]
              exact latency_counter_get_num_reset m.latency
            · rw [if_neg ht, hinv0.2.1 ht]
              rfl
        · exact ih hinvrest _ h

theorem reachable_inv {conf : StatsdConfig} {s : Registry}
    (h : Reachable conf s) : RegistryInv s := by
  induction h with
  | empty => intro kv hkv; cases hkv
  | recv plan buf _ ih => exact inv_parse_buffer plan buf _ ih
  | flush _ ih => exact inv_flush conf _ ih

/-- C5: at flush, a timer entry with `updates_num == 0` that is not
being deleted emits `NaN` on every derived latency series (average,
lower, upper, sum, each percentile), and the `-count` series — the only
`gauge`-typed record of a timer submit, present when `TimerCount` is
set — carries the value `0`. -/
theorem C5_idle_timer_reports_nan (conf : StatsdConfig) (s : Registry)
    (hre : Reachable conf s) (k nm : String) (m : StatsdMetric)
    (hmem : (k, m) ∈ s) (ht : m.mtype = MetricType.timer)
    (hu : m.updates_num = 0) :
    (∀ rec ∈ (statsd_metric_submit_locked conf nm m).1,
        (rec.vtype = "latency" → rec.value = .gauge GVal.nan) ∧
        (rec.vtype = "gauge" → rec.value = .gauge (GVal.fin 0))) ∧
    (conf.timer_count = true →
      ∃ rec ∈ (statsd_metric_submit_locked conf nm m).1, rec.vtype = "gauge") := by
  have hnum : latency_counter_get_num m.latency = 0 :=
    ((reachable_inv hre) (k, m) hmem).2.2 hu
  obtain ⟨mt, mv, ml, ms0, mu⟩ := m
  have ht0 : mt = MetricType.timer := ht
  subst ht0
  have hu0 : mu = 0 := hu
  subst hu0
  have hnum0 : latency_counter_get_num ml = 0 := hnum
  have hno : ¬ ((0 : Nat) > 0) := by decide
  constructor
  · intro rec hrec
    simp only [statsd_metric_submit_locked, List.append_assoc, List.mem_append] at hrec
    rcases hrec with h | h | h | h | h | h
    · simp only [List.mem_singleton] at h
      subst h
      exact ⟨fun _ => by simp [hno], fun hg => by simp at hg⟩
    · by_cases hTL : conf.timer_lower = true
      · simp only [hTL, if_true, List.mem_singleton] at h
        subst h
        exact ⟨fun _ => by simp [hno], fun hg => by simp at hg⟩
      · simp [hTL] at h
    · by_cases hTU : conf.timer_upper = true
      · simp only [hTU, if_true, List.mem_singleton] at h
        subst h
        exact ⟨fun _ => by simp [hno], fun hg => by simp at hg⟩
      · simp [hTU] at h
    · by_cases hTS : conf.timer_sum = true
      · simp only [hTS, if_true, List.mem_singleton] at h
        subst h
        exact ⟨fun _ => by simp [hno], fun hg => by simp at hg⟩
      · simp [hTS] at h
    · obtain ⟨p, hp, hrec⟩ := List.mem_map.mp h
      subst hrec
      exact ⟨fun _ => by simp [hno], fun hg => by simp at hg⟩
    · by_cases hTC : conf.timer_count = true
      · simp only [hTC, if_true, List.mem_singleton] at h
        subst h
        exact ⟨fun hl => by simp at hl, fun _ => by simp [hnum0]⟩
      · simp [hTC] at h
  · intro hTC
    refine ⟨⟨conf.node_name, "gauge",
        nameTrunc (nameTrunc (conf.globalPre ++ conf.timerPre ++ nm
          ++ conf.globalPost) ++ "-count"),
        .gauge (.fin (latency_counter_get_num ml))⟩, ?_, rfl⟩
    simp [statsd_metric_submit_locked, hTC, List.mem_append]

/-- Witness for C5: a timer that received one sample, was flushed once
(resetting it), and is then submitted while idle under a `TimerCount`
configuration. -/
theorem C5_idle_timer_reports_nan_witness :
    (∀ rec ∈ (statsd_metric_submit_locked confC5 "t" mTimerIdle).1,
        (rec.vtype = "latency" → rec.value = .gauge GVal.nan) ∧
        (rec.vtype = "gauge" → rec.value = .gauge (GVal.fin 0))) ∧
    (confC5.timer_count = true →
      ∃ rec ∈ (statsd_metric_submit_locked confC5 "t" mTimerIdle).1,
        rec.vtype = "gauge") :=
  C5_idle_timer_reports_nan confC5
    ((statsd_read_node confC5 (statsd_parse_buffer allocOk [] "t:1|ms\n")).1)
    (Reachable.flush (Reachable.recv allocOk "t:1|ms\n" Reachable.empty))
    "t:t" "t" mTimerIdle
    (by with_unfolding_all decide) (by with_unfolding_all decide)
    (by with_unfolding_all decide)

end Statsd
